import Mathlib

/-!
Verification of the TPWFC worker's markdown timeline parsing engine and
content-integrity codec, shallowly embedded from the Go sources
(`pkg/metadata/metadata.go`, `internal/crawler/parsers/parser.go`, the
column-map timeline parser, and `parser_detailed_timeline.go`).

Strings are modelled as `List Char` (`Str`), mirroring Go string values
rune-by-rune.  Go's regexp uses leftmost-first (Perl-style) matching; the
few fixed patterns the code compiles are embedded as deterministic scanners
that implement exactly that semantics for those patterns.  SHA-256 is
implemented executably over the UTF-8 bytes of the input, as
`crypto/sha256` computes it.
-/

namespace TPWFC

set_option maxRecDepth 4000 in
/-- Go strings, modelled as rune lists. -/
abbrev Str := List Char

/-- Coerce a Lean string literal to the model. -/
def str (s : String) : Str := s.data

/-! ### Generic string helpers (mirroring the `strings` package) -/

/-- The ASCII part of `unicode.IsSpace`, used by `strings.TrimSpace`. -/
def isSpaceGo (c : Char) : Bool :=
  c = ' ' || c = '\t' || c = '\n' || c = '\x0b' || c = '\x0c' || c = '\r'

/-- The character class of `\s` in Go's regexp: `[\t\n\f\r ]`. -/
def isWsRe (c : Char) : Bool :=
  c = '\t' || c = '\n' || c = '\x0c' || c = '\r' || c = ' '

/-- Drop trailing characters satisfying `p`. -/
def trimRightBy (p : Char → Bool) (s : Str) : Str :=
  (s.reverse.dropWhile p).reverse

/-- `strings.TrimSpace` (ASCII whitespace). -/
def trimSpace (s : Str) : Str :=
  trimRightBy isSpaceGo (s.dropWhile isSpaceGo)

/-- `strings.TrimRight(s, "\n")`. -/
def trimRightNl (s : Str) : Str :=
  trimRightBy (· = '\n') s

/-- `strings.Split(s, sep)` for a single-character separator. -/
def splitOnChar (c : Char) : Str → List Str
  | [] => [[]]
  | d :: ds =>
    if d = c then [] :: splitOnChar c ds
    else
      match splitOnChar c ds with
      | [] => [[d]]
      | x :: xs => (d :: x) :: xs

/-- Number of occurrences of a character (`strings.Count` for a 1-rune sep). -/
def countChar (c : Char) : Str → Nat
  | [] => 0
  | d :: ds => (if d = c then 1 else 0) + countChar c ds

/-- `strings.SplitN(s, ":", 2)`: split at the first colon if any. -/
def splitN2Colon (s : Str) : List Str :=
  match s.span (· ≠ ':') with
  | (a, []) => [a]
  | (a, _ :: rest) => [a, rest]

/-- `strings.Contains` for a substring needle. -/
def goContains (s needle : Str) : Bool := s.tails.any (needle.isPrefixOf ·)

/-- `strings.HasPrefix`. -/
def goHasPre (s needle : Str) : Bool := needle.isPrefixOf s

/-- `strings.EqualFold` (simple ASCII folding; inputs here are ASCII). -/
def equalFold (s t : Str) : Bool := s.map Char.toLower == t.map Char.toLower

/-- `strings.ToUpper` (rune-wise; CJK runes are unchanged). -/
def toUpperGo (s : Str) : Str := s.map Char.toUpper

/-- `strings.Join(parts, " ")`. -/
def joinSpace (parts : List Str) : Str := List.intercalate [' '] parts

/-- Numeric value of a decimal digit list (used only on all-digit strings). -/
def parseNatDigits (s : Str) : Nat :=
  s.foldl (fun a c => a * 10 + (c.toNat - '0'.toNat)) 0

/-- `fmt.Sscanf(s, "%d", &n)` with `n` initially 0: skip leading spaces,
optional sign, maximal digit run; on no digits the variable keeps 0. -/
def goScanInt (s : Str) : Int :=
  let t := s.dropWhile isSpaceGo
  match t with
  | '-' :: r =>
    let d := r.takeWhile Char.isDigit
    if d.isEmpty then 0 else -(parseNatDigits d : Int)
  | '+' :: r =>
    let d := r.takeWhile Char.isDigit
    if d.isEmpty then 0 else (parseNatDigits d : Int)
  | _ =>
    let d := t.takeWhile Char.isDigit
    if d.isEmpty then 0 else (parseNatDigits d : Int)

/-- Fuel-driven worker for `removeSub`; `s.length` fuel suffices because a
match consumes at least one character. -/
def removeSubFuel (pat : Str) : Nat → Str → Str
  | _, [] => []
  | 0, s => s
  | fuel + 1, c :: cs =>
    if pat.isPrefixOf (c :: cs) ∧ pat ≠ [] then
      removeSubFuel pat fuel ((c :: cs).drop pat.length)
    else
      c :: removeSubFuel pat fuel cs

/-- `strings.ReplaceAll(s, pat, "")`: remove non-overlapping occurrences,
left to right. -/
def removeSub (pat : Str) (s : Str) : Str := removeSubFuel pat s.length s

/-! ### Data model (`internal/models`, trimmed to the fields the
timeline parser populates) -/

/-- `models.Duration`. -/
structure Duration where
  raw : Str
  days : Int
  hours : Int
  minutes : Int
  seconds : Int
deriving DecidableEq, Repr

/-- `models.CasualtyItem` / parser-internal `CasualtyItem`. -/
structure CasualtyItem where
  type : Str
  count : Int
deriving DecidableEq, Repr

/-- `models.CasualtyData` / parser-internal `CasualtyData`. -/
structure CasualtyData where
  status : Str
  raw : Str
  items : List CasualtyItem
deriving DecidableEq, Repr

/-- `models.EventSource`. -/
structure EventSource where
  name : Str
  url : Str
deriving DecidableEq, Repr

/-- `models.Photo`. -/
structure Photo where
  caption : Str
  url : Str
deriving DecidableEq, Repr

/-- `models.TimelineEvent`. -/
structure TimelineEvent where
  id : Str
  date : Str
  time : Str
  dateTime : Str
  description : Str
  category : Str
  casualties : CasualtyData
  sources : List EventSource
  videoURL : Str
  photos : List Photo
  isCategoryEnd : Bool
deriving DecidableEq, Repr

/-- Parser errors (`parser.go`). -/
inductive RowErr where
  | insufficientCells
  | invalidRow
  | invalidTimeFormat (t : Str)
deriving DecidableEq, Repr

/-- `ErrInvalidDurationFormat`. -/
inductive DurErr where
  | invalidDurationFormat
deriving DecidableEq, Repr

/-! ### Casualty grammar (`parser.go: parseCasualties` and helpers) -/

/-- Leftmost-first match of the regex `TYPE:(\d+)` used by
`extractStatusCodeNumber`: scan for the literal `ty ++ ":"` immediately
followed by at least one digit; capture the maximal digit run. -/
def extractStatusCodeNumber (ty : Str) : Str → Option Int
  | [] => none
  | c :: cs =>
    let s := c :: cs
    let lit := ty ++ [':']
    if lit.isPrefixOf s then
      let d := (s.drop lit.length).takeWhile Char.isDigit
      if d.isEmpty then extractStatusCodeNumber ty cs
      else some (parseNatDigits d)
    else extractStatusCodeNumber ty cs

/-- Leftmost-first match of the regex `(\d+)\s*KW` used by `extractNumber`
for the single keywords 死 and 傷: at each position, a nonempty maximal
digit run, a whitespace run, then the keyword. -/
def extractNumberKw (kw : Str) : Str → Option Int
  | [] => none
  | c :: cs =>
    let s := c :: cs
    let d := s.takeWhile Char.isDigit
    if !d.isEmpty && kw.isPrefixOf ((s.drop d.length).dropWhile isWsRe) then
      some (parseNatDigits d)
    else extractNumberKw kw cs

/-- Leftmost-first match of the regex `(\d+)\s*失蹤|下落不明` used by
`extractNumber` for the missing pattern.  Because of regex alternation
precedence this is `((\d+)\s*失蹤) | (下落不明)`: the second alternative
carries no capture group, so `fmt.Sscanf` leaves the count at 0. -/
def extractNumberMissing : Str → Option Int
  | [] => none
  | c :: cs =>
    let s := c :: cs
    let d := s.takeWhile Char.isDigit
    if !d.isEmpty && (str "失蹤").isPrefixOf ((s.drop d.length).dropWhile isWsRe) then
      some (parseNatDigits d)
    else if (str "下落不明").isPrefixOf s then
      some 0
    else extractNumberMissing cs

/-- One `if strings.HasPrefix(part, TY+":")` block of the status-code
branch of `parseCasualties`. -/
def codeItems (ty : String) (part : Str) : List CasualtyItem :=
  if (str (ty ++ ":")).isPrefixOf part then
    match extractStatusCodeNumber (str ty) part with
    | some n => [{ type := str ty, count := n }]
    | none => []
  else []

/-- The status-code items collected for one comma-separated part, in the
code's check order. -/
def statusCodeItems (part : Str) : List CasualtyItem :=
  codeItems "DEAD" part ++ codeItems "INJURED" part ++ codeItems "MISSING" part ++
  codeItems "FIREFIGHTER_DEAD" part ++ codeItems "FIREFIGHTER_INJURED" part ++
  codeItems "REMAINING_CASES" part ++ codeItems "UNIDENTIFIED" part

/-- The legacy natural-language items collected for one 、`，`-separated
part: the three independent keyword checks of the fallback branch. -/
def legacyItems (part : Str) : List CasualtyItem :=
  (if goContains part (str "死") then
    match extractNumberKw (str "死") part with
    | some n => [{ type := str "DEAD", count := n }]
    | none => []
  else []) ++
  (if goContains part (str "傷") then
    match extractNumberKw (str "傷") part with
    | some n => [{ type := str "INJURED", count := n }]
    | none => []
  else []) ++
  (if goContains part (str "失蹤") || goContains part (str "下落不明") then
    match extractNumberMissing part with
    | some n => [{ type := str "MISSING", count := n }]
    | none => []
  else [])

/-- The final `if len(data.Items) > 0 { data.Status = "STATUS_UPDATE" }`
step of both branches of `parseCasualties`. -/
def tagItems (data : CasualtyData) (items : List CasualtyItem) : CasualtyData :=
  if 0 < items.length then { data with status := str "STATUS_UPDATE", items := items }
  else { data with items := items }

/-- `parseCasualties` (`parser.go`). -/
def parseCasualties (text : Str) : CasualtyData :=
  let data : CasualtyData := { status := text, raw := text, items := [] }
  if trimSpace text = str "STATUS_NONE" then data
  else if text.contains ':' then
    let parts := (splitOnChar ',' text).map trimSpace
    tagItems data (parts.foldl (fun acc part => acc ++ statusCodeItems part) [])
  else
    let parts := (splitOnChar '，' text).map trimSpace
    tagItems data (parts.foldl (fun acc part => acc ++ legacyItems part) [])

/-! ### Duration parsing (`ParseDuration`, timeline parser) -/

/-- `ParseDuration`: `dd:hh:mm:ss`, or 2-segment `hh:mm` for backward
compatibility; any other segment count fails with
`ErrInvalidDurationFormat`. -/
def ParseDuration (s : Str) : Duration × Option DurErr :=
  let d0 : Duration := { raw := s, days := 0, hours := 0, minutes := 0, seconds := 0 }
  if countChar ':' s = 1 then
    let parts := splitOnChar ':' s
    if parts.length = 2 then
      ({ d0 with hours := goScanInt (parts.getD 0 []),
                 minutes := goScanInt (parts.getD 1 []) }, none)
    else (d0, none)
  else
    let parts := splitOnChar ':' s
    if parts.length ≠ 4 then (d0, some .invalidDurationFormat)
    else
      ({ d0 with days := goScanInt (parts.getD 0 []),
                 hours := goScanInt (parts.getD 1 []),
                 minutes := goScanInt (parts.getD 2 []),
                 seconds := goScanInt (parts.getD 3 []) }, none)

/-! ### SHA-256 (`crypto/sha256`), executable over UTF-8 bytes -/

/-- 2^32, the word modulus. -/
def M32 : Nat := 4294967296

/-- Addition modulo 2^32. -/
def add32 (a b : Nat) : Nat := (a + b) % M32

/-- Right rotation of a 32-bit word. -/
def rotr32 (x n : Nat) : Nat := ((x >>> n) ||| (x <<< (32 - n))) % M32

/-- The 64 SHA-256 round constants. -/
def sha256K : List Nat :=
  [1116352408, 1899447441, 3049323471, 3921009573, 961987163, 1508970993,
   2453635748, 2870763221, 3624381080, 310598401, 607225278, 1426881987,
   1925078388, 2162078206, 2614888103, 3248222580, 3835390401, 4022224774,
   264347078, 604807628, 770255983, 1249150122, 1555081692, 1996064986,
   2554220882, 2821834349, 2952996808, 3210313671, 3336571891, 3584528711,
   113926993, 338241895, 666307205, 773529912, 1294757372, 1396182291,
   1695183700, 1986661051, 2177026350, 2456956037, 2730485921, 2820302411,
   3259730800, 3345764771, 3516065817, 3600352804, 4094571909, 275423344,
   430227734, 506948616, 659060556, 883997877, 958139571, 1322822218,
   1537002063, 1747873779, 1955562222, 2024104815, 2227730452, 2361852424,
   2428436474, 2756734187, 3204031479, 3329325298]

/-- SHA-256 message padding: 0x80, zeros to 56 mod 64, 8-byte big-endian
bit length. -/
def sha256Pad (msg : List Nat) : List Nat :=
  let L := msg.length
  let k := (120 - (L + 1) % 64) % 64
  let bits := 8 * L
  msg ++ [0x80] ++ List.replicate k 0 ++
    [(bits >>> 56) % 256, (bits >>> 48) % 256, (bits >>> 40) % 256, (bits >>> 32) % 256,
     (bits >>> 24) % 256, (bits >>> 16) % 256, (bits >>> 8) % 256, bits % 256]

/-- Fuel-driven worker for `chunks64`. -/
def chunks64Fuel : Nat → List Nat → List (List Nat)
  | _, [] => []
  | 0, _ => []
  | fuel + 1, l => l.take 64 :: chunks64Fuel fuel (l.drop 64)

/-- Split into 64-byte blocks. -/
def chunks64 (l : List Nat) : List (List Nat) := chunks64Fuel l.length l

/-- Big-endian 4-byte groups to 32-bit words. -/
def bytesToWords : List Nat → List Nat
  | a :: b :: c :: d :: rest => (((a * 256 + b) * 256 + c) * 256 + d) :: bytesToWords rest
  | _ => []

def smallSigma0 (x : Nat) : Nat := rotr32 x 7 ^^^ rotr32 x 18 ^^^ (x >>> 3)

def smallSigma1 (x : Nat) : Nat := rotr32 x 17 ^^^ rotr32 x 19 ^^^ (x >>> 10)

def bigSigma0 (x : Nat) : Nat := rotr32 x 2 ^^^ rotr32 x 13 ^^^ rotr32 x 22

def bigSigma1 (x : Nat) : Nat := rotr32 x 6 ^^^ rotr32 x 11 ^^^ rotr32 x 25

def chFn (x y z : Nat) : Nat := (x &&& y) ^^^ ((x ^^^ 0xffffffff) &&& z)

def majFn (x y z : Nat) : Nat := (x &&& y) ^^^ (x &&& z) ^^^ (y &&& z)

/-- Extend the 16 schedule words by `n` more. -/
def buildW (w : List Nat) : Nat → List Nat
  | 0 => w
  | n + 1 =>
    let i := w.length
    buildW (w ++ [add32 (add32 (smallSigma1 (w.getD (i - 2) 0)) (w.getD (i - 7) 0))
                 (add32 (smallSigma0 (w.getD (i - 15) 0)) (w.getD (i - 16) 0))]) n

/-- The 8-word working state. -/
abbrev Sha8 := Nat × Nat × Nat × Nat × Nat × Nat × Nat × Nat

/-- One SHA-256 round. -/
def sha256Round (st : Sha8) (k w : Nat) : Sha8 :=
  match st with
  | (a, b, c, d, e, f, g, h) =>
    let t1 := add32 (add32 (add32 h (bigSigma1 e)) (add32 (chFn e f g) k)) w
    let t2 := add32 (bigSigma0 a) (majFn a b c)
    (add32 t1 t2, a, b, c, add32 d t1, e, f, g)

/-- Compress one 64-byte block into the hash state. -/
def sha256Compress (hs : List Nat) (block : List Nat) : List Nat :=
  let w := buildW (bytesToWords block) 48
  let init : Sha8 := (hs.getD 0 0, hs.getD 1 0, hs.getD 2 0, hs.getD 3 0,
                      hs.getD 4 0, hs.getD 5 0, hs.getD 6 0, hs.getD 7 0)
  match (sha256K.zip w).foldl (fun st kw => sha256Round st kw.1 kw.2) init with
  | (a, b, c, d, e, f, g, h) =>
    [add32 (hs.getD 0 0) a, add32 (hs.getD 1 0) b, add32 (hs.getD 2 0) c,
     add32 (hs.getD 3 0) d, add32 (hs.getD 4 0) e, add32 (hs.getD 5 0) f,
     add32 (hs.getD 6 0) g, add32 (hs.getD 7 0) h]

/-- The SHA-256 initial hash state. -/
def sha256H0 : List Nat :=
  [1779033703, 3144134277, 1013904242, 2773480762,
   1359893119, 2600822924, 528734635, 1541459225]

/-- 32-bit word to big-endian bytes. -/
def wordBytes (w : Nat) : List Nat := [(w >>> 24) % 256, (w >>> 16) % 256, (w >>> 8) % 256, w % 256]

/-- SHA-256 digest of a byte sequence. -/
def sha256Bytes (msg : List Nat) : List Nat :=
  ((chunks64 (sha256Pad msg)).foldl sha256Compress sha256H0).flatMap wordBytes

/-- Lowercase hex digit. -/
def hexDigit (n : Nat) : Char := (str "0123456789abcdef").getD n '0'

/-- A byte as two lowercase hex characters. -/
def byteHex (b : Nat) : Str := [hexDigit (b / 16), hexDigit (b % 16)]

/-- `hex.EncodeToString(sha256.Sum256(bytes))`. -/
def sha256Hex (msg : List Nat) : Str := (sha256Bytes msg).flatMap byteHex

/-- UTF-8 encoding of one rune (`[]byte(string)` in Go). -/
def utf8Char (c : Char) : List Nat :=
  let n := c.toNat
  if n < 0x80 then [n]
  else if n < 0x800 then [0xc0 + n / 64, 0x80 + n % 64]
  else if n < 0x10000 then [0xe0 + n / 4096, 0x80 + (n / 64) % 64, 0x80 + n % 64]
  else [0xf0 + n / 262144, 0x80 + (n / 4096) % 64, 0x80 + (n / 64) % 64, 0x80 + n % 64]

/-- UTF-8 bytes of a string. -/
def utf8 (s : Str) : List Nat := s.flatMap utf8Char

/-! ### Event identity (`parser.go: generateEventID`) -/

/-- `generateEventID`: first 12 hex characters of
`sha256(date + "|" + time + "|" + category)`. -/
def generateEventID (date time category : Str) : Str :=
  (sha256Hex (utf8 (date ++ ['|'] ++ time ++ ['|'] ++ category))).take 12

/-! ### Metadata codec (`pkg/metadata/metadata.go`)

The block regex is `(?s)<!--\s*METADATA_START\s*\n(.*?)\n\s*METADATA_END\s*-->`.
Go's regexp implements leftmost-first matching: the match starts at the
earliest possible position; `\s*` is greedy with backtracking and `(.*?)`
is lazy.  For this pattern that semantics is captured exactly by the
deterministic scanners below:
- after `<!--`, the greedy `\s*` followed by the letter `M` consumes the
  maximal whitespace run (whitespace and `M` are disjoint);
- `\s*\n` consumes through a newline of the following whitespace run,
  preferring the latest such newline, backtracking to earlier ones;
- the lazy group ends at the earliest position where
  `\n\s*METADATA_END\s*-->` matches. -/

/-- Strip a literal (one regex literal token); `none` if it is not a
prefix. -/
def dropPre (pre s : Str) : Option Str :=
  if pre.isPrefixOf s then some (s.drop pre.length) else none

/-- Match `\n\s*METADATA_END\s*-->` at the head; return the remainder. -/
def endPatAt (s : Str) : Option Str :=
  match s with
  | '\n' :: r =>
    match dropPre (str "METADATA_END") (r.dropWhile isWsRe) with
    | some r2 => dropPre (str "-->") (r2.dropWhile isWsRe)
    | none => none
  | _ => none

/-- The lazy group: find the earliest end-pattern occurrence; return the
group before it and the remainder after it. -/
def findEnd : Str → Option (Str × Str)
  | [] => none
  | c :: cs =>
    match endPatAt (c :: cs) with
    | some rest => some ([], rest)
    | none => (findEnd cs).map (fun gr => (c :: gr.1, gr.2))

/-- Match the block pattern anchored at the head of `s`; return the
captured group and the remainder after the whole match. -/
def matchCore (s : Str) : Option (Str × Str) :=
  match dropPre (str "<!--") s with
  | none => none
  | some r =>
    match dropPre (str "METADATA_START") (r.dropWhile isWsRe) with
    | none => none
    | some s3 =>
      let run := s3.takeWhile isWsRe
      let js := ((List.range run.length).filter (fun j => run.getD j ' ' = '\n')).reverse
      js.foldl (fun acc j =>
        match acc with
        | some v => some v
        | none => findEnd (s3.drop (j + 1))) none

/-- Leftmost match of the block pattern: `(text before, group, text
after)`. -/
def findFirst : Str → Option (Str × Str × Str)
  | [] => none
  | c :: cs =>
    match matchCore (c :: cs) with
    | some (g, rest) => some ([], g, rest)
    | none => (findFirst cs).map (fun pgr => (c :: pgr.1, pgr.2.1, pgr.2.2))

/-- Fuel-driven worker for `removeAll`; each removed match consumes at
least one character, so `s.length` fuel suffices. -/
def removeAllFuel : Nat → Str → Str
  | 0, s => s
  | fuel + 1, s =>
    match findFirst s with
    | none => s
    | some (p, _, rest) => p ++ removeAllFuel fuel rest

/-- `metadataRegex.ReplaceAllString(content, "")`: remove all
non-overlapping matches left to right. -/
def removeAll (s : Str) : Str := removeAllFuel s.length s

/-- `metadata.Metadata`.  `LastModify` is kept as the raw text of the
`LAST_MODIFY:` value (the Go code parses it as RFC3339 and ignores parse
failures; no verified property depends on the parsed time). -/
structure Metadata where
  validation : Bool
  lastModify : Str
  version : Str
  hash : Str
deriving DecidableEq, Repr

/-- One `KEY: value` line of the metadata block body. -/
def parseMetaLine (m : Metadata) (line : Str) : Metadata :=
  match splitN2Colon (trimSpace line) with
  | [k, v] =>
    let key := trimSpace k
    let val := trimSpace v
    if key = str "VALIDATION" then { m with validation := equalFold val (str "TRUE") }
    else if key = str "LAST_MODIFY" then { m with lastModify := val }
    else if key = str "HASH" then { m with hash := val }
    else if key = str "VERSION" then { m with version := val }
    else m
  | _ => m

/-- Parse the captured block body into `Metadata`. -/
def parseMeta (g : Str) : Metadata :=
  (splitOnChar '\n' g).foldl parseMetaLine
    { validation := false, lastModify := [], version := [], hash := [] }

/-- `metadata.Extract`: metadata of the first block (if any) and the
content with all blocks removed and trailing newlines trimmed. -/
def Extract (content : Str) : Option Metadata × Str :=
  let clean := trimRightNl (removeAll content)
  match findFirst content with
  | none => (none, clean)
  | some (_, g, _) => (some (parseMeta g), clean)

/-- `metadata.CalculateHash`: re-extract, then SHA-256 the clean
remainder. -/
def CalculateHash (content : Str) : Str := sha256Hex (utf8 (Extract content).2)

/-- The freshly built block appended by `Sign`. -/
def signBlock (validated : Bool) (now hash : Str) : Str :=
  str "\n\n<!-- METADATA_START\nVALIDATION: " ++
  (if validated then str "TRUE" else str "FALSE") ++
  str "\nLAST_MODIFY: " ++ now ++ str "\nHASH: " ++ hash ++ str "\nMETADATA_END -->"

/-- `metadata.Sign`.  The timestamp `time.Now().UTC().Format(time.RFC3339)`
is nondeterministic input and is passed explicitly as `now`. -/
def Sign (now : Str) (content : Str) (validated : Bool) : Str :=
  let clean := (Extract content).2
  let hash := CalculateHash clean
  clean ++ signBlock validated now hash

/-- Verification errors of `metadata.Verify`; `hashMismatch` carries the
expected (stored) and computed hashes of the wrapped error message. -/
inductive VerifyErr where
  | noMetadataBlock
  | noHashFound
  | hashMismatch (expected got : Str)
deriving DecidableEq, Repr

/-- `metadata.Verify`. -/
def Verify (content : Str) : Except VerifyErr Bool :=
  match Extract content with
  | (none, _) => .error .noMetadataBlock
  | (some meta, clean) =>
    if meta.hash = [] then .error .noHashFound
    else
      let calculated := CalculateHash clean
      if calculated ≠ meta.hash then .error (.hashMismatch meta.hash calculated)
      else .ok true

/-! ### Fixed regex scanners of the parser (`parser.go`) -/

/-- Match `<!--\s*NAME\s*-->` anchored at the head. -/
def markerAt (nm : Str) (s : Str) : Bool :=
  match dropPre (str "<!--") s with
  | none => false
  | some r =>
    match dropPre nm (r.dropWhile isWsRe) with
    | none => false
    | some r2 => (dropPre (str "-->") (r2.dropWhile isWsRe)).isSome

/-- `MatchString` for the section boundary patterns `<!--\s*NAME\s*-->`. -/
def markerMatch (nm : Str) (s : Str) : Bool := s.tails.any (markerAt nm)

/-- A `\d{1,2}:\d{2}` occurrence starts here (a one-digit start exists iff
some `HH:MM`-shaped substring occurs). -/
def timeAt : Str → Bool
  | d :: c :: a :: b :: _ => d.isDigit && c = ':' && a.isDigit && b.isDigit
  | _ => false

/-- `isValidTime`: the two sentinel tokens, or an (unanchored!)
`\d{1,2}:\d{2}` match anywhere in the string. -/
def isValidTime (t : Str) : Bool :=
  t = str "TIME_ALL_DAY" || t = str "TIME_ONGOING" || t.tails.any timeAt

/-- A `\d{4}-\d{2}-\d{2}` occurrence starts here. -/
def isoAt : Str → Bool
  | a :: b :: c :: d :: s1 :: e :: f :: s2 :: g :: h :: _ =>
    a.isDigit && b.isDigit && c.isDigit && d.isDigit && s1 = '-' &&
    e.isDigit && f.isDigit && s2 = '-' && g.isDigit && h.isDigit
  | _ => false

/-- `MatchString` for the ISO date pattern `\d{4}-\d{2}-\d{2}`
(unanchored). -/
def containsIso (s : Str) : Bool := s.tails.any isoAt

/-- `\d{1,2}` (greedy, with backtracking) followed by the literal `next`;
returns the captured digits and the remainder after the literal. -/
def digits12 (next : Char) : Str → Option (Str × Str)
  | a :: b :: c :: r =>
    if a.isDigit && b.isDigit && c = next then some ([a, b], r)
    else if a.isDigit && b = next then some ([a], c :: r)
    else none
  | [a, b] => if a.isDigit && b = next then some ([a], []) else none
  | _ => none

/-- Match `\*\*(\d{1,2})月(\d{1,2})日\*\*` anchored at the head. -/
def starsAt (s : Str) : Option (Str × Str) :=
  match dropPre (str "**") s with
  | none => none
  | some r =>
    match digits12 '月' r with
    | none => none
    | some (mm, r2) =>
      match digits12 '日' r2 with
      | none => none
      | some (dd, r3) => if (str "**").isPrefixOf r3 then some (mm, dd) else none

/-- Leftmost match of the `**D月D日**` date pattern. -/
def dateStars : Str → Option (Str × Str)
  | [] => none
  | c :: cs =>
    match starsAt (c :: cs) with
    | some v => some v
    | none => dateStars cs

/-- Match `^#{1,3}\s*(\d{1,2})月(\d{1,2})日` (anchored heading form). -/
def dateHeading (s : Str) : Option (Str × Str) :=
  let n := (s.takeWhile (· = '#')).length
  if 1 ≤ n ∧ n ≤ 3 then
    let r := (s.drop n).dropWhile isWsRe
    match digits12 '月' r with
    | none => none
    | some (mm, r2) => (digits12 '日' r2).map (fun ddr => (mm, ddr.1))
  else none

/-- `padZero`. -/
def padZero (s : Str) : Str := if s.length = 1 then '0' :: s else s

/-- The `2025-MM-DD` date built by the legacy date-heading handlers. -/
def mkDate2025 (m d : Str) : Str :=
  str "2025-" ++ padZero m ++ str "-" ++ padZero d

/-- `normalizeTime`: trim, strip the decorative suffixes 左右 and 左轉
(the final split-and-return is the identity in both branches). -/
def normalizeTime (t : Str) : Str :=
  removeSub (str "左轉") (removeSub (str "左右") (trimSpace t))

/-! ### Markdown link extraction (`\[(.*?)\]\((.*?)\)`) -/

/-- The lazy second group: scan to the earliest `)` with no intervening
newline. -/
def linkG2 : Str → Option (Str × Str)
  | [] => none
  | ')' :: r => some ([], r)
  | '\n' :: _ => none
  | c :: r => (linkG2 r).map (fun gr => (c :: gr.1, gr.2))

/-- The lazy first group after `[`: scan to the earliest `](` whose second
group completes, with no intervening newline, backtracking past `](`
occurrences whose second group never closes. -/
def linkG1 : Str → Option (Str × Str × Str)
  | [] => none
  | '\n' :: _ => none
  | ']' :: '(' :: r =>
    match linkG2 r with
    | some (g2, rest) => some ([], g2, rest)
    | none =>
      match linkG1 ('(' :: r) with
      | some (g1, g2, rest) => some (']' :: g1, g2, rest)
      | none => none
  | c :: r => (linkG1 r).map (fun g => (c :: g.1, g.2.1, g.2.2))

/-- Leftmost markdown-link match: `(caption, url, remainder)`. -/
def linkFirstFrom : Str → Option (Str × Str × Str)
  | [] => none
  | '[' :: r =>
    match linkG1 r with
    | some res => some res
    | none => linkFirstFrom r
  | _ :: r => linkFirstFrom r

/-- Fuel-driven worker for `linkAll`. -/
def linkAllFuel : Nat → Str → List (Str × Str)
  | 0, _ => []
  | fuel + 1, s =>
    match linkFirstFrom s with
    | none => []
    | some (g1, g2, rest) => (g1, g2) :: linkAllFuel fuel rest

/-- `FindAllStringSubmatch` for the link pattern: all non-overlapping
matches left to right. -/
def linkAll (s : Str) : List (Str × Str) := linkAllFuel s.length s

/-! ### Cell-level parsing helpers (`parser.go`) -/

/-- `parseSources`. -/
def parseSources (text : Str) : List EventSource :=
  if text = [] || text = str "STATUS_NONE" then []
  else
    let ms := linkAll text
    if 0 < ms.length then ms.map (fun m => { name := m.1, url := m.2 })
    else
      ((splitOnChar ',' text).map trimSpace).filterMap (fun name =>
        if name ≠ [] ∧ name ≠ str "STATUS_NONE" then some { name := name, url := [] }
        else none)

/-- `parsePhotos`. -/
def parsePhotos (text : Str) : List Photo :=
  if text = [] then []
  else
    let ms := linkAll text
    if 0 < ms.length then ms.map (fun m => { caption := m.1, url := m.2 })
    else if text.contains ',' then
      ((splitOnChar ',' text).map trimSpace).filterMap (fun u =>
        if u ≠ [] then some { caption := [], url := u } else none)
    else [{ caption := [], url := text }]

/-- `parseVideoURL`. -/
def parseVideoURL (v : Str) : Str :=
  if v = [] then []
  else
    match linkFirstFrom v with
    | some (_, u, _) => trimSpace u
    | none => if (str "http").isPrefixOf v then v else []

/-- `NormalizeHeader`. -/
def NormalizeHeader (header : Str) : Str :=
  let h := toUpperGo (trimSpace header)
  if h = str "DATE" ∨ h = str "日期" then str "DATE"
  else if h = str "TIME" ∨ h = str "時間" ∨ h = str "时间" then str "TIME"
  else if h = str "EVENT" ∨ h = str "事件" ∨ h = str "DESCRIPTION" ∨ h = str "描述" then str "EVENT"
  else if h = str "CATEGORY" ∨ h = str "類別" ∨ h = str "类别" then str "CATEGORY"
  else if h = str "CASUALTIES" ∨ h = str "死傷狀況" ∨ h = str "死伤状况" then str "CASUALTIES"
  else if h = str "SOURCE" ∨ h = str "SOURCES" ∨ h = str "來源" ∨ h = str "来源" then str "SOURCE"
  else if h = str "VIDEO" ∨ h = str "影片" ∨ h = str "视频" then str "VIDEO"
  else if h = str "PHOTO" ∨ h = str "PHOTOS" ∨ h = str "圖片" ∨ h = str "图片" ∨ h = str "PHOTO/IMAGE" then str "PHOTO"
  else if h = str "END" ∨ h = str "結束" ∨ h = str "结束" then str "END"
  else h

/-- The header→index map built from a header row; Go map insertion with
later duplicate headers overwriting is modelled by prepending, with
lookups taking the first (most recent) entry. -/
abbrev ColMap := List (Str × Nat)

/-- Build the column map from the cleaned header cells. -/
def buildColMap (cells : List Str) : ColMap :=
  cells.enum.foldl (fun m p => (NormalizeHeader p.2, p.1) :: m) []

/-- Map lookup. -/
def colLookup (m : ColMap) (k : Str) : Option Nat :=
  (m.find? (fun e => e.1 == k)).map (·.2)

/-- The cell cleanup of `ParseMarkdownTable`: split on `|`, drop a
leading and a trailing piece that trim to empty. -/
def cleanCells (line : Str) : List Str :=
  let cells := splitOnChar '|' line
  let cells :=
    match cells with
    | x :: xs => if trimSpace x = [] then xs else x :: xs
    | [] => []
  match cells.getLast? with
  | some lastv => if trimSpace lastv = [] then cells.dropLast else cells
  | none => cells

/-- The `getCell` closure of `parseTableRow`. -/
def getCell (m : ColMap) (cells : List Str) (col : Str) : Str :=
  match colLookup m col with
  | some idx => if idx < cells.length then trimSpace (cells.getD idx []) else []
  | none => []

/-- Header-row recognition: some cell normalizes to DATE, TIME or
EVENT. -/
def isHeaderCells (cells : List Str) : Bool :=
  cells.any (fun cell =>
    let h := NormalizeHeader cell
    h = str "DATE" || h = str "TIME" || h = str "EVENT")

/-! ### Row and table parsing (column-map timeline parser) -/

/-- `parseTableRow` (column-map variant). -/
def parseTableRow (cells : List Str) (currentDate : Str) (m : ColMap) :
    Except RowErr TimelineEvent :=
  let dateStr := getCell m cells (str "DATE")
  let timeStr := getCell m cells (str "TIME")
  let description := getCell m cells (str "EVENT")
  let category := getCell m cells (str "CATEGORY")
  let casualtiesStr := getCell m cells (str "CASUALTIES")
  let sourcesStr := getCell m cells (str "SOURCE")
  let videoStr := getCell m cells (str "VIDEO")
  let photosStr := getCell m cells (str "PHOTO")
  let endStr := getCell m cells (str "END")
  if timeStr = [] then .error .invalidRow
  else
    let currentDate := if dateStr ≠ [] ∧ containsIso dateStr then dateStr else currentDate
    if !isValidTime timeStr then .error (.invalidTimeFormat timeStr)
    else
      let casualtiesData := parseCasualties casualtiesStr
      let eventID := generateEventID currentDate (normalizeTime timeStr) category
      let dateTime :=
        if timeStr = str "TIME_ALL_DAY" ∨ timeStr = str "TIME_ONGOING" then
          currentDate ++ str "T00:00:00"
        else
          currentDate ++ ['T'] ++ normalizeTime timeStr ++ str ":00"
      .ok { id := eventID, date := currentDate, time := timeStr, dateTime := dateTime,
            description := description, category := category,
            casualties := casualtiesData, sources := parseSources sourcesStr,
            videoURL := parseVideoURL videoStr, photos := parsePhotos photosStr,
            isCategoryEnd := equalFold endStr (str "x") || equalFold endStr (str "true") }

/-- The state threaded through the `ParseMarkdownTable` line loop. -/
structure TState where
  inTable : Bool
  colMap : Option ColMap
  curDate : Str
deriving DecidableEq, Repr

/-- The blank-line/separator skip condition of the `ParseMarkdownTable`
loop. -/
def skipLine (line : Str) : Bool :=
  line.isEmpty || (str "|-").isPrefixOf line || (str "| -").isPrefixOf line ||
  goContains line (str "|---")

/-- Events emitted and state reached by one line of the
`ParseMarkdownTable` loop. -/
def stepLine (st : TState) (raw : Str) : List TimelineEvent × TState :=
  let line := trimSpace raw
  if markerMatch (str "TIMELINE_TABLE_START") line then
    ([], { st with inTable := true, colMap := none })
  else if markerMatch (str "TIMELINE_TABLE_END") line then
    ([], { st with inTable := false })
  else if skipLine line then
    ([], st)
  else if st.inTable then
    if ['|'].isPrefixOf line then
      let cc := cleanCells line
      if isHeaderCells cc then ([], { st with colMap := some (buildColMap cc) })
      else
        match st.colMap with
        | some m =>
          match parseTableRow cc st.curDate m with
          | .ok ev => ([ev], { st with curDate := if ev.date ≠ [] then ev.date else st.curDate })
          | .error _ => ([], st)
        | none => ([], st)
    else ([], st)
  else
    match dateStars line with
    | some md => ([], { st with curDate := mkDate2025 md.1 md.2 })
    | none =>
      match dateHeading line with
      | some md => ([], { st with curDate := mkDate2025 md.1 md.2 })
      | none => ([], st)

/-- The `ParseMarkdownTable` line loop. -/
def parseLinesGo : List Str → TState → List TimelineEvent
  | [], _ => []
  | l :: ls, st =>
    let r := stepLine st l
    r.1 ++ parseLinesGo ls r.2

/-- The initial loop state. -/
def tInit : TState := { inTable := false, colMap := none, curDate := [] }

/-- `ParseMarkdownTable`: the Go function always returns a nil error. -/
def ParseMarkdownTable (md : Str) : List TimelineEvent × Option RowErr :=
  (parseLinesGo (splitOnChar '\n' md) tInit, none)

/-! ### Section parsers and document assembly -/

/-- The HTML-comment line filter of `parseSection`
(`^\s*<!--.*-->\s*$`). -/
def commentLine (s : Str) : Bool :=
  let u := trimRightBy isWsRe (s.dropWhile isWsRe)
  (str "<!--").isPrefixOf u && (str "-->").reverse.isPrefixOf u.reverse && 7 ≤ u.length

/-- The `parseSection` line loop. -/
def sectionGo (startNm endNm : Str) : List Str → Bool → List Str
  | [], _ => []
  | l :: ls, ins =>
    if markerMatch startNm l then sectionGo startNm endNm ls true
    else if markerMatch endNm l then []
    else if ins then
      let t := trimSpace l
      if t ≠ [] ∧ !commentLine t then t :: sectionGo startNm endNm ls ins
      else sectionGo startNm endNm ls ins
    else sectionGo startNm endNm ls ins

/-- `parseSection`: text between markers, non-empty non-comment lines
joined by single spaces. -/
def parseSection (startNm endNm : Str) (md : Str) : Str :=
  joinSpace (sectionGo startNm endNm (splitOnChar '\n' md) false)

/-- The `parseNotes` line loop. -/
def notesGo : List Str → Bool → List Str
  | [], _ => []
  | l :: ls, ins =>
    if markerMatch (str "NOTES_START") l then notesGo ls true
    else if markerMatch (str "NOTES_END") l then []
    else if ins then
      let t := trimSpace l
      if (str "- ").isPrefixOf t then t.drop 2 :: notesGo ls ins else notesGo ls ins
    else notesGo ls ins

/-- `parseNotes`. -/
def parseNotes (md : Str) : List Str := notesGo (splitOnChar '\n' md) false

/-- `models.MapSource`. -/
structure MapSource where
  name : Str
  url : Str
deriving DecidableEq, Repr

/-- `models.BasicInfo`. -/
structure BasicInfo where
  incidentID : Str
  incidentName : Str
  dateRange : Str
  startDate : Str
  endDate : Str
  location : Str
  map : MapSource
  disasterLevel : Str
  duration : Duration
  affectedBuildings : Int
  sources : Str
deriving DecidableEq, Repr

/-- The zero `BasicInfo`. -/
def basicInfo0 : BasicInfo :=
  { incidentID := [], incidentName := [], dateRange := [], startDate := [], endDate := [],
    location := [], map := { name := [], url := [] }, disasterLevel := [],
    duration := { raw := [], days := 0, hours := 0, minutes := 0, seconds := 0 },
    affectedBuildings := 0, sources := [] }

/-- Fuel-driven split on a multi-character separator (`strings.Split`). -/
def splitOnSubFuel (sep : Str) : Nat → Str → List Str
  | _, [] => [[]]
  | 0, s => [s]
  | fuel + 1, c :: cs =>
    if sep.isPrefixOf (c :: cs) ∧ sep ≠ [] then
      [] :: splitOnSubFuel sep fuel ((c :: cs).drop sep.length)
    else
      match splitOnSubFuel sep fuel cs with
      | [] => [[c]]
      | x :: xs => (c :: x) :: xs

/-- `strings.Split` with a multi-character separator. -/
def splitOnSub (sep s : Str) : List Str := splitOnSubFuel sep s.length s

/-- One `case` of the `parseBasicInfo` key switch. -/
def basicInfoKV (info : BasicInfo) (key value : Str) : BasicInfo :=
  if key = str "INCIDENT_ID" then { info with incidentID := value }
  else if key = str "INCIDENT_NAME" then { info with incidentName := value }
  else if key = str "DATE_RANGE" then
    let info := { info with dateRange := value }
    if goContains value (str " - ") then
      match splitOnSub (str " - ") value with
      | [a, b] => { info with startDate := trimSpace a, endDate := trimSpace b }
      | _ => info
    else if value.contains '/' then
      match splitOnChar '/' value with
      | [a, b] => { info with startDate := trimSpace a, endDate := trimSpace b }
      | _ => info
    else info
  else if key = str "LOCATION" then { info with location := value }
  else if key = str "MAP" then
    match linkFirstFrom value with
    | some (n, u, _) => { info with map := { name := n, url := u } }
    | none =>
      if (str "http").isPrefixOf value then { info with map := { name := [], url := value } }
      else { info with map := { name := value, url := [] } }
  else if key = str "DISASTER_LEVEL" then { info with disasterLevel := value }
  else if key = str "DURATION" then
    match ParseDuration value with
    | (d, none) => { info with duration := d }
    | (_, some _) =>
      { info with duration := { raw := value, days := 0, hours := 0, minutes := 0, seconds := 0 } }
  else if key = str "AFFECTED_BUILDINGS" then { info with affectedBuildings := goScanInt value }
  else if key = str "SOURCES" then { info with sources := value }
  else info

/-- The key/value row filter shared by `parseBasicInfo` and
`parseKeyStatistics`. -/
def kvRow (line : Str) : Bool :=
  ['|'].isPrefixOf line && !goContains line (str "項目") && !goContains line (str "KEY") &&
  !(str "|---").isPrefixOf line

/-- The `parseBasicInfo` line loop (no end-marker break in the code). -/
def basicInfoGo : List Str → Bool → BasicInfo → BasicInfo
  | [], _, info => info
  | l :: ls, ins, info =>
    if markerMatch (str "BASIC_INFO_START") l then basicInfoGo ls true info
    else if ins ∧ kvRow l then
      match splitOnChar '|' l with
      | _ :: k :: v :: _ => basicInfoGo ls ins (basicInfoKV info (trimSpace k) (trimSpace v))
      | _ => basicInfoGo ls ins info
    else basicInfoGo ls ins info

/-- `parseBasicInfo`. -/
def parseBasicInfo (md : Str) : BasicInfo :=
  basicInfoGo (splitOnChar '\n' md) false basicInfo0

/-- `models.FirefighterCasualties`. -/
structure FirefighterCasualties where
  deaths : Int
  injured : Int
deriving DecidableEq, Repr

/-- `parseFirefighterCasualties`. -/
def parseFirefighterCasualties (value : Str) : FirefighterCasualties :=
  if value = [] then { deaths := 0, injured := 0 }
  else
    (splitOnChar ',' value).foldl (fun c part =>
      let part := trimSpace part
      let c := if (str "DEAD:").isPrefixOf part then { c with deaths := goScanInt (part.drop 5) } else c
      if (str "INJURED:").isPrefixOf part then { c with injured := goScanInt (part.drop 8) } else c)
      { deaths := 0, injured := 0 }

/-- `models.KeyStatistics`. -/
structure KeyStatistics where
  finalDeaths : Int
  firefighterCasualties : FirefighterCasualties
  firefightersDeployed : Int
  fireVehicles : Int
  helpCases : Int
  helpCasesProcessed : Int
  shelterUsers : Int
  missingPersons : Int
  unidentifiedBodies : Int
deriving DecidableEq, Repr

/-- The zero `KeyStatistics`. -/
def keyStats0 : KeyStatistics :=
  { finalDeaths := 0, firefighterCasualties := { deaths := 0, injured := 0 },
    firefightersDeployed := 0, fireVehicles := 0, helpCases := 0, helpCasesProcessed := 0,
    shelterUsers := 0, missingPersons := 0, unidentifiedBodies := 0 }

/-- One `case` of the `parseKeyStatistics` key switch. -/
def keyStatsKV (stats : KeyStatistics) (key value : Str) : KeyStatistics :=
  if key = str "FINAL_DEATHS" then { stats with finalDeaths := goScanInt value }
  else if key = str "FIREFIGHTER_CASUALTIES" then
    { stats with firefighterCasualties := parseFirefighterCasualties value }
  else if key = str "FIREFIGHTERS_DEPLOYED" then { stats with firefightersDeployed := goScanInt value }
  else if key = str "FIRE_VEHICLES" then { stats with fireVehicles := goScanInt value }
  else if key = str "HELP_CASES" then { stats with helpCases := goScanInt value }
  else if key = str "HELP_CASES_PROCESSED" then { stats with helpCasesProcessed := goScanInt value }
  else if key = str "SHELTER_USERS" then { stats with shelterUsers := goScanInt value }
  else if key = str "MISSING_PERSONS" then { stats with missingPersons := goScanInt value }
  else if key = str "UNIDENTIFIED_BODIES" then { stats with unidentifiedBodies := goScanInt value }
  else stats

/-- The `parseKeyStatistics` line loop (breaks on the end marker). -/
def keyStatsGo : List Str → Bool → KeyStatistics → KeyStatistics
  | [], _, stats => stats
  | l :: ls, ins, stats =>
    if markerMatch (str "KEY_STATISTICS_START") l then keyStatsGo ls true stats
    else if markerMatch (str "KEY_STATISTICS_END") l then stats
    else if ins ∧ kvRow l then
      match splitOnChar '|' l with
      | _ :: k :: v :: _ => keyStatsGo ls ins (keyStatsKV stats (trimSpace k) (trimSpace v))
      | _ => keyStatsGo ls ins stats
    else keyStatsGo ls ins stats

/-- `parseKeyStatistics`. -/
def parseKeyStatistics (md : Str) : KeyStatistics :=
  keyStatsGo (splitOnChar '\n' md) false keyStats0

/-- `models.Source`. -/
structure Source where
  name : Str
  title : Str
  url : Str
deriving DecidableEq, Repr

/-- The separator-row pattern `^\|[\s\-:\|]+\|$` of
`parseSourcesSection`. -/
def sepSourceRow (s : Str) : Bool :=
  3 ≤ s.length && ['|'].isPrefixOf s && ['|'].isPrefixOf s.reverse &&
  s.all (fun c => isWsRe c || c = '-' || c = ':' || c = '|')

/-- The `parseSourcesSection` line loop. -/
def sourcesGo : List Str → Bool → List Source
  | [], _ => []
  | l :: ls, ins =>
    if markerMatch (str "SOURCES_START") l then sourcesGo ls true
    else if markerMatch (str "SOURCES_END") l then []
    else
      let t := trimSpace l
      if ins ∧ ['|'].isPrefixOf t ∧ ¬ goContains l (str "SOURCE_NAME") ∧ ¬ sepSourceRow t then
        match splitOnChar '|' l with
        | _ :: n :: ti :: u :: _ =>
          let url := trimSpace u
          let url := if ['<'].isPrefixOf url then url.drop 1 else url
          let url := if ['>'].isPrefixOf url.reverse then url.dropLast else url
          { name := trimSpace n, title := trimSpace ti, url := url } :: sourcesGo ls ins
        | _ => sourcesGo ls ins
      else sourcesGo ls ins

/-- `parseSourcesSection`. -/
def parseSourcesSection (md : Str) : List Source :=
  sourcesGo (splitOnChar '\n' md) false

/-- `models.TimelineDocument`. -/
structure TimelineDocument where
  basicInfo : BasicInfo
  fireCause : Str
  severity : Str
  events : List TimelineEvent
  keyStatistics : KeyStatistics
  sources : List Source
  notes : List Str
  metadata : Option Metadata
deriving DecidableEq, Repr

/-- `ParseDocument`. -/
def ParseDocument (md : Str) : Option TimelineDocument × Option RowErr :=
  let em := Extract md
  let clean := em.2
  match ParseMarkdownTable clean with
  | (_, some e) => (none, some e)
  | (events, none) =>
    (some { basicInfo := parseBasicInfo clean,
            fireCause := parseSection (str "FIRE_CAUSE_START") (str "FIRE_CAUSE_END") clean,
            severity := parseSection (str "SEVERITY_START") (str "SEVERITY_END") clean,
            events := events,
            keyStatistics := parseKeyStatistics clean,
            sources := parseSourcesSection clean,
            notes := parseNotes clean,
            metadata := em.1 }, none)

/-! ### Detailed timeline events (`parser_detailed_timeline.go`,
`parseDetailedTimelineEvents`) -/

/-- `models.DetailedTimelineEvent`. -/
structure DetailedTimelineEvent where
  id : Str
  date : Str
  time : Str
  dateTime : Str
  event : Str
  category : Str
  statusNote : Str
  sources : List EventSource
  videoURL : Str
  photoURL : Str
  isCategoryEnd : Bool
deriving DecidableEq, Repr

/-- The body of the phase-table row handler: the raw (untrimmed) line is
skipped when it contains `DATE` or `TIME` anywhere or starts with
`|---`. -/
def detailedRowEvent (line : Str) : Option DetailedTimelineEvent :=
  if goContains line (str "DATE") || goContains line (str "TIME") ||
      (str "|---").isPrefixOf line then none
  else
    let cells := splitOnChar '|' line
    if cells.length < 7 then none
    else
      let dateStr := trimSpace (cells.getD 1 [])
      let timeStr := trimSpace (cells.getD 2 [])
      let eventDesc := trimSpace (cells.getD 3 [])
      let category := trimSpace (cells.getD 4 [])
      let statusNote := trimSpace (cells.getD 5 [])
      let sourcesStr := trimSpace (cells.getD 6 [])
      if dateStr = [] ∨ ¬ containsIso dateStr then none
      else
        let videoURL := if 7 < cells.length then parseVideoURL (trimSpace (cells.getD 7 [])) else []
        let photoURL := if 8 < cells.length then parseVideoURL (trimSpace (cells.getD 8 [])) else []
        let isCategoryEnd :=
          if 9 < cells.length then
            let endStr := trimSpace (cells.getD 9 [])
            equalFold endStr (str "x") || equalFold endStr (str "true")
          else false
        let dateTime :=
          if timeStr = str "TIME_ALL_DAY" ∨ timeStr = str "TIME_ONGOING" then
            dateStr ++ str "T00:00:00"
          else dateStr ++ ['T'] ++ normalizeTime timeStr ++ str ":00"
        some { id := generateEventID dateStr (normalizeTime timeStr) category,
               date := dateStr, time := timeStr, dateTime := dateTime, event := eventDesc,
               category := category, statusNote := statusNote,
               sources := parseSources sourcesStr, videoURL := videoURL,
               photoURL := photoURL, isCategoryEnd := isCategoryEnd }

/-- The `parseDetailedTimelineEvents` line loop (lines are not
trimmed). -/
def detailedGo : List Str → Bool → List DetailedTimelineEvent
  | [], _ => []
  | l :: ls, inTable =>
    if markerMatch (str "TIMELINE_TABLE_START") l then detailedGo ls true
    else if markerMatch (str "TIMELINE_TABLE_END") l then detailedGo ls false
    else if inTable ∧ ['|'].isPrefixOf l then
      match detailedRowEvent l with
      | some ev => ev :: detailedGo ls inTable
      | none => detailedGo ls inTable
    else detailedGo ls inTable

/-- `parseDetailedTimelineEvents`. -/
def parseDetailedTimelineEvents (phaseContent : Str) : List DetailedTimelineEvent :=
  detailedGo (splitOnChar '\n' phaseContent) false

/-! ### Table-document lemmas (used by C3 and C2) -/

/-- Join lines with newlines (the document text whose `strings.Split`
recovers the lines). -/
def unlines : List Str → Str
  | [] => []
  | [l] => l
  | l :: ls => l ++ '\n' :: unlines ls

/-- A six-cell pipe table row. -/
def mkRow6 (c1 c2 c3 c4 c5 c6 : Str) : Str :=
  '|' :: c1 ++ '|' :: c2 ++ '|' :: c3 ++ '|' :: c4 ++ '|' :: c5 ++ '|' :: c6 ++ ['|']

/-! ### Claim C3: date carry-over -/

/-- The column map built from the claim's header row
`DATE|TIME|EVENT|CATEGORY|CASUALTIES|SOURCE`. -/
def stdM : ColMap :=
  buildColMap (cleanCells (str "| DATE | TIME | EVENT | CATEGORY | CASUALTIES | SOURCE |"))

/-- Line lists that agree up to the locale-dependent cells of data rows:
either the lines are equal, or both are in-table data rows whose DATE,
TIME and CATEGORY cells agree. -/
inductive RowsAgree : TState → List Str → List Str → Prop where
  | nil (st : TState) : RowsAgree st [] []
  | same (st : TState) (l : Str) (L₁ L₂ : List Str) :
      RowsAgree (stepLine st l).2 L₁ L₂ → RowsAgree st (l :: L₁) (l :: L₂)
  | row (st : TState) (l₁ l₂ : Str) (L₁ L₂ : List Str) :
      st.inTable = true →
      markerMatch (str "TIMELINE_TABLE_START") (trimSpace l₁) = false →
      markerMatch (str "TIMELINE_TABLE_END") (trimSpace l₁) = false →
      skipLine (trimSpace l₁) = false →
      ['|'].isPrefixOf (trimSpace l₁) = true →
      isHeaderCells (cleanCells (trimSpace l₁)) = false →
      markerMatch (str "TIMELINE_TABLE_START") (trimSpace l₂) = false →
      markerMatch (str "TIMELINE_TABLE_END") (trimSpace l₂) = false →
      skipLine (trimSpace l₂) = false →
      ['|'].isPrefixOf (trimSpace l₂) = true →
      isHeaderCells (cleanCells (trimSpace l₂)) = false →
      (∀ m, st.colMap = some m →
        getCell m (cleanCells (trimSpace l₁)) (str "DATE") =
          getCell m (cleanCells (trimSpace l₂)) (str "DATE") ∧
        getCell m (cleanCells (trimSpace l₁)) (str "TIME") =
          getCell m (cleanCells (trimSpace l₂)) (str "TIME") ∧
        getCell m (cleanCells (trimSpace l₁)) (str "CATEGORY") =
          getCell m (cleanCells (trimSpace l₂)) (str "CATEGORY")) →
      RowsAgree (stepLine st l₁).2 L₁ L₂ →
      RowsAgree st (l₁ :: L₁) (l₂ :: L₂)

def metaBody (v : Bool) (now h : Str) : Str :=
  str "VALIDATION: " ++ (if v then str "TRUE" else str "FALSE") ++
  str "\nLAST_MODIFY: " ++ now ++ str "\nHASH: " ++ h

/-- Adversarial input for `C7_counterexample`: removing its two complete
metadata blocks splices the remaining text into a fresh `<!-- METADATA_START`
opener, so the once-signed output still carries a marker. -/
def c7text : Str :=
  str "<!--<!-" ++ str "<!-- METADATA_START\nY\nMETADATA_END -->" ++
  str "- METADATA_START\nZ\nMETADATA_END --> METADATA_START\nX"

theorem tagItems_raw (d : CasualtyData) (i : List CasualtyItem) :
    (tagItems d i).raw = d.raw := by
  unfold tagItems; split <;> rfl

theorem tagItems_items (d : CasualtyData) (i : List CasualtyItem) :
    (tagItems d i).items = i := by
  unfold tagItems; split <;> rfl

theorem tagItems_status_ne (d : CasualtyData) (i : List CasualtyItem) (h : i ≠ []) :
    (tagItems d i).status = str "STATUS_UPDATE" := by
  unfold tagItems
  rw [if_pos (by cases i with | nil => exact absurd rfl h | cons a l => simp)]

theorem tagItems_status_nil (d : CasualtyData) (i : List CasualtyItem) (h : i = []) :
    (tagItems d i).status = d.status := by
  subst h; rfl

theorem splitOnChar_length (c : Char) (s : Str) :
    (splitOnChar c s).length = countChar c s + 1 := by
  induction s with
  | nil => simp [splitOnChar, countChar]
  | cons d ds ih =>
    simp only [splitOnChar, countChar]
    by_cases h : d = c
    · simp only [h, if_true, if_pos rfl, List.length_cons, ih]
      omega
    · simp only [h, if_false, if_neg h]
      cases hs : splitOnChar c ds with
      | nil => rw [hs] at ih; simp at ih
      | cons x xs =>
        rw [hs] at ih
        simp only [List.length_cons] at ih ⊢
        omega

/-! ### Substring lemmas used throughout -/

theorem pre_to_inf {α : Type} {l₁ l₂ : List α} (h : l₁ <+: l₂) : l₁ <:+: l₂ :=
  h.isInfix

theorem suf_to_inf {α : Type} {l₁ l₂ : List α} (h : l₁ <:+ l₂) : l₁ <:+: l₂ :=
  h.isInfix

theorem inf_trans {α : Type} {l₁ l₂ l₃ : List α} (h₁ : l₁ <:+: l₂) (h₂ : l₂ <:+: l₃) :
    l₁ <:+: l₃ :=
  h₁.trans h₂

theorem inf_cons {α : Type} {l₁ l₂ : List α} (a : α) (h : l₁ <:+: l₂) : l₁ <:+: a :: l₂ :=
  inf_trans h (suf_to_inf (List.suffix_cons a l₂))

/-- `goContains` decides the infix relation. -/
theorem goContains_iff {s needle : Str} : goContains s needle = true ↔ needle <:+: s := by
  unfold goContains
  rw [List.any_eq_true]
  constructor
  · rintro ⟨t, ht, hp⟩
    rw [List.mem_tails] at ht
    exact inf_trans (pre_to_inf (by rwa [← List.isPrefixOf_iff_prefix])) (suf_to_inf ht)
  · intro h
    rw [List.infix_iff_prefix_suffix] at h
    obtain ⟨t, hp, hs⟩ := h
    exact ⟨t, (List.mem_tails _ _).mpr hs, by rwa [List.isPrefixOf_iff_prefix]⟩

/-- The pieces of `splitOnChar` are infixes of the input, and the first
piece is a prefix. -/
theorem splitOnChar_shape (c : Char) (s : Str) :
    ∃ y ys, splitOnChar c s = y :: ys ∧ y <+: s ∧
      ∀ x ∈ splitOnChar c s, x <:+: s := by
  induction s with
  | nil => exact ⟨[], [], rfl, List.nil_prefix, by intro x hx; simp [splitOnChar] at hx; simp [hx]⟩
  | cons d ds ih =>
    obtain ⟨y, ys, hsplit, hpre, hmem⟩ := ih
    by_cases h : d = c
    · refine ⟨[], splitOnChar c ds, by simp [splitOnChar, h], List.nil_prefix, ?_⟩
      intro x hx
      simp only [splitOnChar, if_pos h, List.mem_cons] at hx
      rcases hx with hx | hx
      · simp [hx]
      · exact inf_cons d (hmem x hx)
    · refine ⟨d :: y, ys, by simp [splitOnChar, h, hsplit], (List.prefix_cons_inj d).mpr hpre, ?_⟩
      intro x hx
      simp only [splitOnChar, if_neg h, hsplit, List.mem_cons] at hx
      rcases hx with hx | hx
      · rw [hx]
        exact pre_to_inf ((List.prefix_cons_inj d).mpr hpre)
      · exact inf_cons d (hmem x (by simp [hsplit, hx]))

theorem mem_splitOnChar_inf {c : Char} {s x : Str} (hx : x ∈ splitOnChar c s) : x <:+: s := by
  obtain ⟨y, ys, _, _, hmem⟩ := splitOnChar_shape c s
  exact hmem x hx

/-- `trimRightBy` yields a prefix of its argument. -/
theorem trimRightBy_pre (p : Char → Bool) (s : Str) : trimRightBy p s <+: s := by
  have h : s.reverse.dropWhile p <:+ s.reverse := List.dropWhile_suffix p
  have h2 := List.reverse_prefix.mpr h
  rwa [List.reverse_reverse] at h2

/-- `trimSpace` yields an infix of its argument. -/
theorem trimSpace_inf (s : Str) : trimSpace s <:+: s := by
  unfold trimSpace
  have h1 : trimRightBy isSpaceGo (s.dropWhile isSpaceGo) <+: s.dropWhile isSpaceGo :=
    trimRightBy_pre _ _
  have h2 : s.dropWhile isSpaceGo <:+ s := List.dropWhile_suffix _
  exact inf_trans (pre_to_inf h1) (suf_to_inf h2)

/-- The `getD`-indexed cells of a split line are infixes of the line. -/
theorem getD_splitOnChar_inf (c : Char) (s : Str) (i : Nat) :
    (splitOnChar c s).getD i [] <:+: s := by
  by_cases h : i < (splitOnChar c s).length
  · rw [List.getD_eq_getElem _ _ h]
    exact mem_splitOnChar_inf (List.getElem_mem _)
  · rw [List.getD_eq_default _ _ (by omega)]
    simp

/-! ### Claim C10: detailed-timeline sentinel branch unreachability -/

/-- Facts provided by a successful `detailedRowEvent`. -/
theorem detailedRowEvent_some {l : Str} {ev : DetailedTimelineEvent}
    (h : detailedRowEvent l = some ev) :
    goContains l (str "TIME") = false ∧
    ev.time = trimSpace ((splitOnChar '|' l).getD 2 []) ∧
    ev.date = trimSpace ((splitOnChar '|' l).getD 1 []) ∧
    ev.dateTime =
      (if ev.time = str "TIME_ALL_DAY" ∨ ev.time = str "TIME_ONGOING" then
        ev.date ++ str "T00:00:00"
      else ev.date ++ ['T'] ++ normalizeTime ev.time ++ str ":00") := by
  unfold detailedRowEvent at h
  by_cases h1 : goContains l (str "DATE") = true ∨ goContains l (str "TIME") = true ∨
      (str "|---").isPrefixOf l = true
  · exfalso
    have : (goContains l (str "DATE") || goContains l (str "TIME") ||
        (str "|---").isPrefixOf l) = true := by
      rcases h1 with h1 | h1 | h1 <;> simp [h1]
    rw [if_pos this] at h
    exact Option.noConfusion h
  · push_neg at h1
    obtain ⟨hd, ht, hp⟩ := h1
    have hcond : (goContains l (str "DATE") || goContains l (str "TIME") ||
        (str "|---").isPrefixOf l) = false := by
      simp only [Bool.or_eq_false_iff]
      exact ⟨⟨Bool.eq_false_iff.mpr hd, Bool.eq_false_iff.mpr ht⟩, Bool.eq_false_iff.mpr hp⟩
    rw [hcond] at h
    simp only [Bool.false_eq_true, if_false] at h
    split at h
    · exact Option.noConfusion h
    · split at h
      · exact Option.noConfusion h
      · rw [Option.some_inj] at h
        subst h
        exact ⟨Bool.eq_false_iff.mpr ht, rfl, rfl, rfl⟩

/-- C10: in `parseDetailedTimelineEvents`, any phase-table row whose raw
line contains `DATE` or `TIME` is skipped as a header, so no emitted event
carries a sentinel time and the `{date}T00:00:00` branch is unreachable:
every emitted event has the `{date}T{normalized time}:00` form. -/
theorem C10_detailed_sentinel_unreachable (content : Str) (e : DetailedTimelineEvent)
    (he : e ∈ parseDetailedTimelineEvents content) :
    e.time ≠ str "TIME_ALL_DAY" ∧ e.time ≠ str "TIME_ONGOING" ∧
    e.dateTime = e.date ++ ['T'] ++ normalizeTime e.time ++ str ":00" := by
  unfold parseDetailedTimelineEvents at he
  generalize hb : false = b at he
  clear hb
  generalize splitOnChar '\n' content = L at he
  induction L generalizing b with
  | nil => simp [detailedGo] at he
  | cons l ls ih =>
    unfold detailedGo at he
    split at he
    · exact ih _ he
    · split at he
      · exact ih _ he
      · split at he
        · split at he
          · rename_i hev
            rcases List.mem_cons.mp he with h | h
            · subst h
              obtain ⟨htime, hvt, hvd, hdt⟩ := detailedRowEvent_some hev
              have hcell : trimSpace ((splitOnChar '|' l).getD 2 []) <:+: l :=
                inf_trans (trimSpace_inf _) (getD_splitOnChar_inf '|' l 2)
              have hinl : e.time <:+: l := by rw [hvt]; exact hcell
              have hta : e.time ≠ str "TIME_ALL_DAY" := by
                intro hta0
                have h1 : str "TIME" <:+: e.time := by rw [hta0]; decide
                have h2 : str "TIME" <:+: l := inf_trans h1 hinl
                rw [← goContains_iff, htime] at h2
                exact Bool.noConfusion h2
              have hto : e.time ≠ str "TIME_ONGOING" := by
                intro hon
                have h1 : str "TIME" <:+: e.time := by rw [hon]; decide
                have h2 : str "TIME" <:+: l := inf_trans h1 hinl
                rw [← goContains_iff, htime] at h2
                exact Bool.noConfusion h2
              refine ⟨hta, hto, ?_⟩
              rw [hdt, if_neg (by simp [hta, hto])]
            · exact ih _ h
          · exact ih _ he
        · exact ih _ he

/-- C10 witness: a concrete phase table whose data row produces an event;
the theorem applies to its first event. -/
theorem C10_detailed_sentinel_unreachable_witness :
    ((parseDetailedTimelineEvents
      (str "<!-- TIMELINE_TABLE_START -->\n| 2025-01-01 | 14:00 | Ev | Cat | note | src |\n<!-- TIMELINE_TABLE_END -->")).map
        (fun e => e.time)).head? ≠ some (str "TIME_ALL_DAY") := by
  cases hev : parseDetailedTimelineEvents
      (str "<!-- TIMELINE_TABLE_START -->\n| 2025-01-01 | 14:00 | Ev | Cat | note | src |\n<!-- TIMELINE_TABLE_END -->") with
  | nil => simp
  | cons e es =>
    have h := (C10_detailed_sentinel_unreachable
      (str "<!-- TIMELINE_TABLE_START -->\n| 2025-01-01 | 14:00 | Ev | Cat | note | src |\n<!-- TIMELINE_TABLE_END -->")
      e (by rw [hev]; exact List.mem_cons_self e es)).1
    simp only [List.map_cons, List.head?_cons, ne_eq, Option.some_inj]
    exact h

/-! ### Claim C6: invalid-time rows -/

/-- C6 counterexample: the TIME cell `ab12:34cd` is neither of the exact
form `HH:MM` nor a sentinel, yet the row produces an event, because
`isValidTime` matches `\d{1,2}:\d{2}` anywhere in the cell. -/
theorem C6_counterexample :
    ((ParseMarkdownTable (str "<!-- TIMELINE_TABLE_START -->\n| DATE | TIME | EVENT | CATEGORY | CASUALTIES | SOURCE |\n| 2025-01-01 | ab12:34cd | E | C | STATUS_NONE | S |\n<!-- TIMELINE_TABLE_END -->")).1.map
      (fun e => e.time)) = [str "ab12:34cd"] := by
  decide

/-- C6 (amended): a data row is rejected when its TIME cell is not a
sentinel and contains no `\d{1,2}:\d{2}` substring (this includes the
empty cell); a rejected row emits no event and leaves the parse state
unchanged, so all other rows parse as if it were absent; and
`ParseDocument` never returns an error. -/
theorem C6_invalid_time_row_dropped :
    (∀ cells curDate m,
      getCell m cells (str "TIME") ≠ str "TIME_ALL_DAY" →
      getCell m cells (str "TIME") ≠ str "TIME_ONGOING" →
      (getCell m cells (str "TIME")).tails.any timeAt = false →
      (parseTableRow cells curDate m).isOk = false) ∧
    (∀ st raw L,
      st.inTable = true →
      markerMatch (str "TIMELINE_TABLE_START") (trimSpace raw) = false →
      markerMatch (str "TIMELINE_TABLE_END") (trimSpace raw) = false →
      skipLine (trimSpace raw) = false →
      isHeaderCells (cleanCells (trimSpace raw)) = false →
      (∀ m', st.colMap = some m' →
        (parseTableRow (cleanCells (trimSpace raw)) st.curDate m').isOk = false) →
      parseLinesGo (raw :: L) st = parseLinesGo L st) ∧
    (∀ md, (ParseDocument md).2 = none) := by
  refine ⟨?_, ?_, ?_⟩
  · intro cells curDate m h1 h2 h3
    simp only [parseTableRow]
    by_cases ht : getCell m cells (str "TIME") = []
    · rw [if_pos ht]
      rfl
    · rw [if_neg ht]
      have hv : isValidTime (getCell m cells (str "TIME")) = false := by
        unfold isValidTime
        simp only [Bool.or_eq_false_iff]
        exact ⟨⟨decide_eq_false h1, decide_eq_false h2⟩, h3⟩
      rw [hv]
      rfl
  · intro st raw L hin hm1 hm2 hskip hhdr hrow
    have hstep : stepLine st raw = ([], st) := by
      unfold stepLine
      rw [if_neg (by simp [hm1]), if_neg (by simp [hm2]), if_neg (by simp [hskip]),
        if_pos hin]
      by_cases hpipe : ['|'].isPrefixOf (trimSpace raw) = true
      · rw [if_pos hpipe, if_neg (by simp [hhdr])]
        cases hcm : st.colMap with
        | none => rfl
        | some m' =>
          have := hrow m' hcm
          cases hpr : parseTableRow (cleanCells (trimSpace raw)) st.curDate m' with
          | ok ev => rw [hpr] at this; exact absurd this (by simp [Except.isOk, Except.toBool])
          | error e => simp only [hpr]
      · rw [if_neg hpipe]
    have hrec : parseLinesGo (raw :: L) st =
        (stepLine st raw).1 ++ parseLinesGo L (stepLine st raw).2 := rfl
    rw [hrec, hstep]
    simp
  · intro md
    simp [ParseDocument, ParseMarkdownTable]

/-- C6 witness: the rejection clause at a concrete row and column map. -/
theorem C6_invalid_time_row_dropped_witness :
    (parseTableRow [str "2025-01-01", str "99x", str "E", str "C", str "", str ""] []
      (buildColMap [str "DATE", str "TIME", str "EVENT", str "CATEGORY", str "CASUALTIES",
        str "SOURCE"])).isOk = false :=
  C6_invalid_time_row_dropped.1 _ _ _ (by decide) (by decide) (by decide)

theorem splitOnChar_of_nf {c : Char} {a : Str} (ha : ∀ x ∈ a, x ≠ c) :
    splitOnChar c a = [a] := by
  induction a with
  | nil => rfl
  | cons d ds ih =>
    have hd : d ≠ c := ha d (List.mem_cons_self d ds)
    have hds := ih (fun x hx => ha x (List.mem_cons_of_mem d hx))
    simp [splitOnChar, hd, hds]

theorem splitOnChar_append_cons (c : Char) {a : Str} (b : Str) (ha : ∀ x ∈ a, x ≠ c) :
    splitOnChar c (a ++ c :: b) = a :: splitOnChar c b := by
  induction a with
  | nil => simp [splitOnChar]
  | cons d ds ih =>
    have hd : d ≠ c := ha d (List.mem_cons_self d ds)
    have hds := ih (fun x hx => ha x (List.mem_cons_of_mem d hx))
    simp only [List.cons_append, splitOnChar, if_neg hd]
    have happ : ds.append (c :: b) = ds ++ c :: b := rfl
    rw [happ, hds]

theorem split_unlines {L : List Str} (hne : L ≠ [])
    (hnl : ∀ l ∈ L, ∀ ch ∈ l, ch ≠ '\n') :
    splitOnChar '\n' (unlines L) = L := by
  induction L with
  | nil => exact absurd rfl hne
  | cons l ls ih =>
    cases ls with
    | nil => exact splitOnChar_of_nf (hnl l (List.mem_cons_self l []))
    | cons l' ls' =>
      have h1 : unlines (l :: l' :: ls') = l ++ '\n' :: unlines (l' :: ls') := rfl
      rw [h1, splitOnChar_append_cons '\n' _ (hnl l (List.mem_cons_self _ _)),
        ih (by simp) (fun x hx => hnl x (List.mem_cons_of_mem l hx))]

theorem trimSpace_pipeWrap (y : Str) :
    trimSpace ('|' :: (y ++ ['|'])) = '|' :: (y ++ ['|']) := by
  unfold trimSpace trimRightBy
  have h1 : List.dropWhile isSpaceGo ('|' :: (y ++ ['|'])) = '|' :: (y ++ ['|']) := by
    rw [List.dropWhile_cons]
    simp [isSpaceGo]
  rw [h1]
  have h2 : ('|' :: (y ++ ['|'])).reverse = '|' :: (y.reverse ++ ['|']) := by
    simp
  rw [h2, List.dropWhile_cons]
  simp [isSpaceGo]

theorem mkRow6_pipe_pre (a b c d e f : Str) : ['|'].isPrefixOf (mkRow6 a b c d e f) = true := by
  rw [List.isPrefixOf_iff_prefix]
  exact ⟨a ++ '|' :: b ++ '|' :: c ++ '|' :: d ++ '|' :: e ++ '|' :: f ++ ['|'],
    by simp [mkRow6]⟩

theorem trimSpace_mkRow6 (c1 c2 c3 c4 c5 c6 : Str) :
    trimSpace (mkRow6 c1 c2 c3 c4 c5 c6) = mkRow6 c1 c2 c3 c4 c5 c6 := by
  have h : mkRow6 c1 c2 c3 c4 c5 c6 =
      '|' :: ((c1 ++ '|' :: c2 ++ '|' :: c3 ++ '|' :: c4 ++ '|' :: c5 ++ '|' :: c6) ++ ['|']) := by
    simp [mkRow6]
  rw [h, trimSpace_pipeWrap]

/-- The pieces of a well-formed six-cell row. -/
theorem cleanCells_mkRow6 (c1 c2 c3 c4 c5 c6 : Str)
    (h1 : ∀ x ∈ c1, x ≠ '|') (h2 : ∀ x ∈ c2, x ≠ '|') (h3 : ∀ x ∈ c3, x ≠ '|')
    (h4 : ∀ x ∈ c4, x ≠ '|') (h5 : ∀ x ∈ c5, x ≠ '|') (h6 : ∀ x ∈ c6, x ≠ '|') :
    cleanCells (mkRow6 c1 c2 c3 c4 c5 c6) = [c1, c2, c3, c4, c5, c6] := by
  have hsplit : splitOnChar '|' (mkRow6 c1 c2 c3 c4 c5 c6) =
      [[], c1, c2, c3, c4, c5, c6, []] := by
    have hform : mkRow6 c1 c2 c3 c4 c5 c6 =
        '|' :: (c1 ++ '|' :: (c2 ++ '|' :: (c3 ++ '|' :: (c4 ++ '|' ::
          (c5 ++ '|' :: (c6 ++ '|' :: ([] : Str))))))) := by
      simp [mkRow6]
    have hstep : ∀ t : Str, splitOnChar '|' ('|' :: t) = [] :: splitOnChar '|' t := by
      intro t
      simp [splitOnChar]
    rw [hform, hstep, splitOnChar_append_cons '|' _ h1, splitOnChar_append_cons '|' _ h2,
      splitOnChar_append_cons '|' _ h3, splitOnChar_append_cons '|' _ h4,
      splitOnChar_append_cons '|' _ h5, splitOnChar_append_cons '|' _ h6]
    rfl
  unfold cleanCells
  rw [hsplit]
  rfl

theorem isValidTime_ne_nil {t : Str} (h : isValidTime t = true) : t ≠ [] := by
  intro he
  subst he
  exact absurd h (by decide)

theorem containsIso_ne_nil {d : Str} (h : containsIso d = true) : d ≠ [] := by
  intro he
  subst he
  exact absurd h (by decide)

/-- `parseTableRow` on a row whose TIME cell is valid: the emitted event
and its date/time fields. -/
theorem parseTableRow_ok (cells : List Str) (cd : Str) (m : ColMap)
    (htv : isValidTime (getCell m cells (str "TIME")) = true) :
    ∃ ev, parseTableRow cells cd m = .ok ev ∧
      ev.date = (if getCell m cells (str "DATE") ≠ [] ∧
          containsIso (getCell m cells (str "DATE")) then getCell m cells (str "DATE")
        else cd) ∧
      ev.time = getCell m cells (str "TIME") := by
  have htne : getCell m cells (str "TIME") ≠ [] := isValidTime_ne_nil htv
  unfold parseTableRow
  rw [if_neg htne, htv]
  exact ⟨_, rfl, rfl, rfl⟩

/-- `stepLine` on a well-formed data row inside a table with a column
map. -/
theorem stepLine_row (M : ColMap) (cd : Str) (row : Str)
    (hm1 : markerMatch (str "TIMELINE_TABLE_START") (trimSpace row) = false)
    (hm2 : markerMatch (str "TIMELINE_TABLE_END") (trimSpace row) = false)
    (hsk : skipLine (trimSpace row) = false)
    (hpipe : ['|'].isPrefixOf (trimSpace row) = true)
    (hhdr : isHeaderCells (cleanCells (trimSpace row)) = false)
    (htv : isValidTime (getCell M (cleanCells (trimSpace row)) (str "TIME")) = true) :
    ∃ ev, stepLine { inTable := true, colMap := some M, curDate := cd } row =
        ([ev], { inTable := true, colMap := some M, curDate := ev.date }) ∧
      ev.date = (if getCell M (cleanCells (trimSpace row)) (str "DATE") ≠ [] ∧
          containsIso (getCell M (cleanCells (trimSpace row)) (str "DATE")) then
            getCell M (cleanCells (trimSpace row)) (str "DATE")
        else cd) ∧
      ev.time = getCell M (cleanCells (trimSpace row)) (str "TIME") := by
  obtain ⟨ev, hok, hdate, htime⟩ := parseTableRow_ok (cleanCells (trimSpace row)) cd M htv
  refine ⟨ev, ?_, hdate, htime⟩
  unfold stepLine
  rw [if_neg (by simp [hm1]), if_neg (by simp [hm2]), if_neg (by simp [hsk]),
    if_pos (show ({ inTable := true, colMap := some M, curDate := cd } : TState).inTable = true
      from rfl), if_pos hpipe, if_neg (by simp [hhdr])]
  simp only [hok]
  have hsel : (if ev.date ≠ [] then ev.date else cd) = ev.date := by
    rw [hdate]
    by_cases hq : getCell M (cleanCells (trimSpace row)) (str "DATE") ≠ [] ∧
        containsIso (getCell M (cleanCells (trimSpace row)) (str "DATE"))
    · rw [if_pos hq, if_pos (by simp [hq.1])]
    · rw [if_neg hq]
      simp
  rw [hsel]

theorem mem_mkRow6 {x : Char} {a b c d e f : Str} (h : x ∈ mkRow6 a b c d e f) :
    x = '|' ∨ x ∈ a ∨ x ∈ b ∨ x ∈ c ∨ x ∈ d ∨ x ∈ e ∨ x ∈ f := by
  simp only [mkRow6, List.mem_append, List.mem_cons, List.mem_singleton] at h
  tauto

theorem getCell_lookup (m : ColMap) (col : Str) (idx : Nat) (cells : List Str)
    (hidx : colLookup m col = some idx) (hlt : idx < cells.length) :
    getCell m cells col = trimSpace (cells.getD idx []) := by
  simp [getCell, hidx, hlt]

/-- C3: in a TIMELINE_TABLE with the header
`DATE|TIME|EVENT|CATEGORY|CASUALTIES|SOURCE` and two valid data rows, the
first with an ISO DATE cell and the second with a blank DATE cell, both
rows produce events and both events' Date equals the first row's date. -/
theorem C3_date_carry_over
    (d t1 t2 e1 c1 cs1 s1 e2 c2 cs2 s2 : Str)
    (hchar : ∀ x ∈ d ++ t1 ++ e1 ++ c1 ++ cs1 ++ s1 ++ t2 ++ e2 ++ c2 ++ cs2 ++ s2,
      x ≠ '|' ∧ x ≠ '\n')
    (hd_tr : trimSpace d = d) (hd_iso : containsIso d = true)
    (ht1_tr : trimSpace t1 = t1) (ht1_v : isValidTime t1 = true)
    (ht2_tr : trimSpace t2 = t2) (ht2_v : isValidTime t2 = true)
    (hr1_m1 : markerMatch (str "TIMELINE_TABLE_START") (mkRow6 d t1 e1 c1 cs1 s1) = false)
    (hr1_m2 : markerMatch (str "TIMELINE_TABLE_END") (mkRow6 d t1 e1 c1 cs1 s1) = false)
    (hr1_sk : skipLine (mkRow6 d t1 e1 c1 cs1 s1) = false)
    (hr1_h : isHeaderCells [d, t1, e1, c1, cs1, s1] = false)
    (hr2_m1 : markerMatch (str "TIMELINE_TABLE_START") (mkRow6 [] t2 e2 c2 cs2 s2) = false)
    (hr2_m2 : markerMatch (str "TIMELINE_TABLE_END") (mkRow6 [] t2 e2 c2 cs2 s2) = false)
    (hr2_sk : skipLine (mkRow6 [] t2 e2 c2 cs2 s2) = false)
    (hr2_h : isHeaderCells [[], t2, e2, c2, cs2, s2] = false) :
    ((ParseMarkdownTable (unlines
      [str "<!-- TIMELINE_TABLE_START -->",
       str "| DATE | TIME | EVENT | CATEGORY | CASUALTIES | SOURCE |",
       str "|------|------|-------|----------|------------|--------|",
       mkRow6 d t1 e1 c1 cs1 s1,
       mkRow6 [] t2 e2 c2 cs2 s2,
       str "<!-- TIMELINE_TABLE_END -->"])).1.map (fun e => (e.date, e.time))) =
      [(d, t1), (d, t2)] := by
  -- cell-level character facts
  have hcell : ∀ y : Str, (∀ x ∈ y, x ∈ d ++ t1 ++ e1 ++ c1 ++ cs1 ++ s1 ++ t2 ++ e2 ++
      c2 ++ cs2 ++ s2) → (∀ x ∈ y, x ≠ '|') ∧ (∀ x ∈ y, x ≠ '\n') :=
    fun y hy => ⟨fun x hx => (hchar x (hy x hx)).1, fun x hx => (hchar x (hy x hx)).2⟩
  have hid := hcell d (fun x hx => by simp [hx])
  have hit1 := hcell t1 (fun x hx => by simp [hx])
  have hie1 := hcell e1 (fun x hx => by simp [hx])
  have hic1 := hcell c1 (fun x hx => by simp [hx])
  have hics1 := hcell cs1 (fun x hx => by simp [hx])
  have his1 := hcell s1 (fun x hx => by simp [hx])
  have hit2 := hcell t2 (fun x hx => by simp [hx])
  have hie2 := hcell e2 (fun x hx => by simp [hx])
  have hic2 := hcell c2 (fun x hx => by simp [hx])
  have hics2 := hcell cs2 (fun x hx => by simp [hx])
  have his2 := hcell s2 (fun x hx => by simp [hx])
  have hnil : ∀ x ∈ ([] : Str), x ≠ '|' := by simp
  -- the two rows' clean cells
  have hcc1 : cleanCells (mkRow6 d t1 e1 c1 cs1 s1) = [d, t1, e1, c1, cs1, s1] :=
    cleanCells_mkRow6 _ _ _ _ _ _ hid.1 hit1.1 hie1.1 hic1.1 hics1.1 his1.1
  have hcc2 : cleanCells (mkRow6 [] t2 e2 c2 cs2 s2) = [[], t2, e2, c2, cs2, s2] :=
    cleanCells_mkRow6 _ _ _ _ _ _ hnil hit2.1 hie2.1 hic2.1 hics2.1 his2.1
  -- the document splits back into its lines
  have hsplit : splitOnChar '\n' (unlines
      [str "<!-- TIMELINE_TABLE_START -->",
       str "| DATE | TIME | EVENT | CATEGORY | CASUALTIES | SOURCE |",
       str "|------|------|-------|----------|------------|--------|",
       mkRow6 d t1 e1 c1 cs1 s1,
       mkRow6 [] t2 e2 c2 cs2 s2,
       str "<!-- TIMELINE_TABLE_END -->"]) =
      [str "<!-- TIMELINE_TABLE_START -->",
       str "| DATE | TIME | EVENT | CATEGORY | CASUALTIES | SOURCE |",
       str "|------|------|-------|----------|------------|--------|",
       mkRow6 d t1 e1 c1 cs1 s1,
       mkRow6 [] t2 e2 c2 cs2 s2,
       str "<!-- TIMELINE_TABLE_END -->"] := by
    apply split_unlines (by simp)
    intro l hl ch hch
    simp only [List.mem_cons] at hl
    rcases hl with h | h | h | h | h | h | h
    · subst h; exact fun he => absurd (he ▸ hch) (by decide)
    · subst h; exact fun he => absurd (he ▸ hch) (by decide)
    · subst h; exact fun he => absurd (he ▸ hch) (by decide)
    · subst h
      rcases mem_mkRow6 hch with hx | hx | hx | hx | hx | hx | hx
      · subst hx; decide
      · exact hid.2 ch hx
      · exact hit1.2 ch hx
      · exact hie1.2 ch hx
      · exact hic1.2 ch hx
      · exact hics1.2 ch hx
      · exact his1.2 ch hx
    · subst h
      rcases mem_mkRow6 hch with hx | hx | hx | hx | hx | hx | hx
      · subst hx; decide
      · exact absurd hx (List.not_mem_nil ch)
      · exact hit2.2 ch hx
      · exact hie2.2 ch hx
      · exact hic2.2 ch hx
      · exact hics2.2 ch hx
      · exact his2.2 ch hx
    · subst h; exact fun he => absurd (he ▸ hch) (by decide)
    · exact absurd h (List.not_mem_nil l)
  -- step the six lines
  have hgo : ∀ (l : Str) (ls : List Str) (st : TState),
      parseLinesGo (l :: ls) st = (stepLine st l).1 ++ parseLinesGo ls (stepLine st l).2 :=
    fun _ _ _ => rfl
  have h0 : stepLine tInit (str "<!-- TIMELINE_TABLE_START -->") =
      ([], { inTable := true, colMap := none, curDate := [] }) := by decide
  have h1 : stepLine { inTable := true, colMap := none, curDate := [] }
      (str "| DATE | TIME | EVENT | CATEGORY | CASUALTIES | SOURCE |") =
      ([], { inTable := true, colMap := some stdM, curDate := [] }) := by decide
  have h2 : stepLine { inTable := true, colMap := some stdM, curDate := [] }
      (str "|------|------|-------|----------|------------|--------|") =
      ([], { inTable := true, colMap := some stdM, curDate := [] }) := by decide
  -- row 1
  have hgetT1 : getCell stdM (cleanCells (trimSpace (mkRow6 d t1 e1 c1 cs1 s1))) (str "TIME") = t1 := by
    rw [trimSpace_mkRow6, hcc1, getCell_lookup stdM (str "TIME") 1 _ (by decide) (by simp)]
    exact ht1_tr
  have hgetD1 : getCell stdM (cleanCells (trimSpace (mkRow6 d t1 e1 c1 cs1 s1))) (str "DATE") = d := by
    rw [trimSpace_mkRow6, hcc1, getCell_lookup stdM (str "DATE") 0 _ (by decide) (by simp)]
    exact hd_tr
  obtain ⟨ev1, hstep1, hdate1, htime1⟩ := stepLine_row stdM [] (mkRow6 d t1 e1 c1 cs1 s1)
    (by rw [trimSpace_mkRow6]; exact hr1_m1)
    (by rw [trimSpace_mkRow6]; exact hr1_m2)
    (by rw [trimSpace_mkRow6]; exact hr1_sk)
    (by rw [trimSpace_mkRow6]; exact mkRow6_pipe_pre d t1 e1 c1 cs1 s1)
    (by rw [trimSpace_mkRow6, hcc1]; exact hr1_h)
    (by rw [hgetT1]; exact ht1_v)
  have hev1d : ev1.date = d := by
    rw [hdate1, hgetD1, if_pos ⟨containsIso_ne_nil hd_iso, hd_iso⟩]
  have hev1t : ev1.time = t1 := by rw [htime1, hgetT1]
  -- row 2
  have hgetT2 : getCell stdM (cleanCells (trimSpace (mkRow6 [] t2 e2 c2 cs2 s2))) (str "TIME") = t2 := by
    rw [trimSpace_mkRow6, hcc2, getCell_lookup stdM (str "TIME") 1 _ (by decide) (by simp)]
    exact ht2_tr
  have hgetD2 : getCell stdM (cleanCells (trimSpace (mkRow6 [] t2 e2 c2 cs2 s2))) (str "DATE") = [] := by
    rw [trimSpace_mkRow6, hcc2, getCell_lookup stdM (str "DATE") 0 _ (by decide) (by simp)]
    rfl
  obtain ⟨ev2, hstep2, hdate2, htime2⟩ := stepLine_row stdM ev1.date (mkRow6 [] t2 e2 c2 cs2 s2)
    (by rw [trimSpace_mkRow6]; exact hr2_m1)
    (by rw [trimSpace_mkRow6]; exact hr2_m2)
    (by rw [trimSpace_mkRow6]; exact hr2_sk)
    (by rw [trimSpace_mkRow6]; exact mkRow6_pipe_pre [] t2 e2 c2 cs2 s2)
    (by rw [trimSpace_mkRow6, hcc2]; exact hr2_h)
    (by rw [hgetT2]; exact ht2_v)
  have hev2d : ev2.date = d := by
    rw [hdate2, hgetD2, if_neg (by simp)]
    exact hev1d
  have hev2t : ev2.time = t2 := by rw [htime2, hgetT2]
  -- the closing marker
  have h5 : ∀ st : TState, stepLine st (str "<!-- TIMELINE_TABLE_END -->") =
      ([], { st with inTable := false }) := by
    intro st
    unfold stepLine
    rw [if_neg (by decide), if_pos (by decide)]
  -- assemble
  simp only [ParseMarkdownTable]
  rw [hsplit, hgo, h0]
  simp only [List.nil_append]
  rw [hgo, h1]
  simp only [List.nil_append]
  rw [hgo, h2]
  simp only [List.nil_append]
  rw [hgo, hstep1]
  simp only []
  rw [hgo, hstep2]
  simp only []
  rw [hgo, h5]
  simp only [List.nil_append]
  simp [parseLinesGo, hev1d, hev1t, hev2d, hev2t]

/-- C3 witness: a concrete two-row table with a blank second DATE cell. -/
theorem C3_date_carry_over_witness :
    ((ParseMarkdownTable (unlines
      [str "<!-- TIMELINE_TABLE_START -->",
       str "| DATE | TIME | EVENT | CATEGORY | CASUALTIES | SOURCE |",
       str "|------|------|-------|----------|------------|--------|",
       mkRow6 (str "2025-11-26") (str "14:30") (str "Fire starts") (str "FIRE")
         (str "DEAD:1") (str "HK01"),
       mkRow6 [] (str "15:00") (str "Fire spreads") (str "FIRE")
         (str "STATUS_NONE") (str "RTHK"),
       str "<!-- TIMELINE_TABLE_END -->"])).1.map (fun e => (e.date, e.time))) =
      [(str "2025-11-26", str "14:30"), (str "2025-11-26", str "15:00")] :=
  C3_date_carry_over (str "2025-11-26") (str "14:30") (str "15:00") (str "Fire starts")
    (str "FIRE") (str "DEAD:1") (str "HK01") (str "Fire spreads") (str "FIRE")
    (str "STATUS_NONE") (str "RTHK")
    (by decide) (by decide) (by decide) (by decide) (by decide) (by decide) (by decide)
    (by decide) (by decide) (by decide) (by decide) (by decide) (by decide) (by decide)
    (by decide)

/-! ### Claim C2: event identity -/

/-- The mapped-row result of `parseTableRow` on locale-independent fields
only depends on the DATE, TIME and CATEGORY cells. -/
theorem parseTableRow_locale (cells₁ cells₂ : List Str) (cd : Str) (m : ColMap)
    (hD : getCell m cells₁ (str "DATE") = getCell m cells₂ (str "DATE"))
    (hT : getCell m cells₁ (str "TIME") = getCell m cells₂ (str "TIME"))
    (hC : getCell m cells₁ (str "CATEGORY") = getCell m cells₂ (str "CATEGORY")) :
    (parseTableRow cells₁ cd m).map (fun ev => (ev.id, ev.date, ev.time, ev.category)) =
    (parseTableRow cells₂ cd m).map (fun ev => (ev.id, ev.date, ev.time, ev.category)) := by
  unfold parseTableRow
  rw [hD, hT, hC]
  dsimp only
  split
  · rfl
  · split
    · rfl
    · rfl

/-- `stepLine` on an in-table data row with a column map. -/
theorem stepLine_data_some (st : TState) (l : Str) (m : ColMap)
    (hin : st.inTable = true)
    (hm1 : markerMatch (str "TIMELINE_TABLE_START") (trimSpace l) = false)
    (hm2 : markerMatch (str "TIMELINE_TABLE_END") (trimSpace l) = false)
    (hsk : skipLine (trimSpace l) = false)
    (hpipe : ['|'].isPrefixOf (trimSpace l) = true)
    (hhdr : isHeaderCells (cleanCells (trimSpace l)) = false)
    (hcm : st.colMap = some m) :
    stepLine st l =
      match parseTableRow (cleanCells (trimSpace l)) st.curDate m with
      | .ok ev => ([ev], { st with curDate := if ev.date ≠ [] then ev.date else st.curDate })
      | .error _ => ([], st) := by
  unfold stepLine
  rw [if_neg (by simp [hm1]), if_neg (by simp [hm2]), if_neg (by simp [hsk]), if_pos hin,
    if_pos hpipe, if_neg (by simp [hhdr]), hcm]

/-- `stepLine` on an in-table data row without a column map. -/
theorem stepLine_data_none (st : TState) (l : Str)
    (hin : st.inTable = true)
    (hm1 : markerMatch (str "TIMELINE_TABLE_START") (trimSpace l) = false)
    (hm2 : markerMatch (str "TIMELINE_TABLE_END") (trimSpace l) = false)
    (hsk : skipLine (trimSpace l) = false)
    (hpipe : ['|'].isPrefixOf (trimSpace l) = true)
    (hhdr : isHeaderCells (cleanCells (trimSpace l)) = false)
    (hcm : st.colMap = none) :
    stepLine st l = ([], st) := by
  unfold stepLine
  rw [if_neg (by simp [hm1]), if_neg (by simp [hm2]), if_neg (by simp [hsk]), if_pos hin,
    if_pos hpipe, if_neg (by simp [hhdr]), hcm]

/-- Two in-table data rows agreeing on the DATE, TIME and CATEGORY cells
produce the same emitted event ids and the same successor state. -/
theorem stepLine_agree (st : TState) (l₁ l₂ : Str)
    (hin : st.inTable = true)
    (h1m1 : markerMatch (str "TIMELINE_TABLE_START") (trimSpace l₁) = false)
    (h1m2 : markerMatch (str "TIMELINE_TABLE_END") (trimSpace l₁) = false)
    (h1sk : skipLine (trimSpace l₁) = false)
    (h1p : ['|'].isPrefixOf (trimSpace l₁) = true)
    (h1h : isHeaderCells (cleanCells (trimSpace l₁)) = false)
    (h2m1 : markerMatch (str "TIMELINE_TABLE_START") (trimSpace l₂) = false)
    (h2m2 : markerMatch (str "TIMELINE_TABLE_END") (trimSpace l₂) = false)
    (h2sk : skipLine (trimSpace l₂) = false)
    (h2p : ['|'].isPrefixOf (trimSpace l₂) = true)
    (h2h : isHeaderCells (cleanCells (trimSpace l₂)) = false)
    (hcells : ∀ m, st.colMap = some m →
      getCell m (cleanCells (trimSpace l₁)) (str "DATE") =
        getCell m (cleanCells (trimSpace l₂)) (str "DATE") ∧
      getCell m (cleanCells (trimSpace l₁)) (str "TIME") =
        getCell m (cleanCells (trimSpace l₂)) (str "TIME") ∧
      getCell m (cleanCells (trimSpace l₁)) (str "CATEGORY") =
        getCell m (cleanCells (trimSpace l₂)) (str "CATEGORY")) :
    (stepLine st l₁).1.map (fun e => e.id) = (stepLine st l₂).1.map (fun e => e.id) ∧
    (stepLine st l₁).2 = (stepLine st l₂).2 := by
  cases hcm : st.colMap with
  | none =>
    rw [stepLine_data_none st l₁ hin h1m1 h1m2 h1sk h1p h1h hcm,
      stepLine_data_none st l₂ hin h2m1 h2m2 h2sk h2p h2h hcm]
    exact ⟨rfl, rfl⟩
  | some m =>
    obtain ⟨hD, hT, hC⟩ := hcells m hcm
    have hmap := parseTableRow_locale (cleanCells (trimSpace l₁)) (cleanCells (trimSpace l₂))
      st.curDate m hD hT hC
    rw [stepLine_data_some st l₁ m hin h1m1 h1m2 h1sk h1p h1h hcm,
      stepLine_data_some st l₂ m hin h2m1 h2m2 h2sk h2p h2h hcm]
    cases he1 : parseTableRow (cleanCells (trimSpace l₁)) st.curDate m with
    | ok ev₁ =>
      cases he2 : parseTableRow (cleanCells (trimSpace l₂)) st.curDate m with
      | ok ev₂ =>
        rw [he1, he2] at hmap
        simp only [Except.map] at hmap
        have htup := Except.ok.inj hmap
        have hid : ev₁.id = ev₂.id := congrArg Prod.fst htup
        have hdate : ev₁.date = ev₂.date := congrArg (fun p => p.2.1) htup
        exact ⟨by simp [hid], by simp [hdate]⟩
      | error e₂ =>
        rw [he1, he2] at hmap
        simp [Except.map] at hmap
    | error e₁ =>
      cases he2 : parseTableRow (cleanCells (trimSpace l₂)) st.curDate m with
      | ok ev₂ =>
        rw [he1, he2] at hmap
        simp [Except.map] at hmap
      | error e₂ => exact ⟨rfl, rfl⟩

/-- C2: the event ID is the first 12 hex characters of
`sha256(date + "|" + normalizeTime(time) + "|" + category)`; every event
emitted by `parseTableRow` carries that ID over its own date, time and
category; and two documents whose rows differ only outside the DATE, TIME
and CATEGORY cells produce identical event-ID sequences. -/
theorem C2_event_identity :
    (∀ dt tm cat : Str, generateEventID dt tm cat =
      (sha256Hex (utf8 (dt ++ '|' :: tm ++ '|' :: cat))).take 12) ∧
    (∀ cells cd m ev, parseTableRow cells cd m = .ok ev →
      ev.id = (sha256Hex (utf8 (ev.date ++ '|' :: normalizeTime ev.time ++ '|' ::
        ev.category))).take 12) ∧
    (∀ st L₁ L₂, RowsAgree st L₁ L₂ →
      (parseLinesGo L₁ st).map (fun e => e.id) = (parseLinesGo L₂ st).map (fun e => e.id)) := by
  refine ⟨?_, ?_, ?_⟩
  · intro dt tm cat
    simp [generateEventID]
  · intro cells cd m ev h
    simp only [parseTableRow] at h
    split at h
    · exact Except.noConfusion h
    · split at h
      · exact Except.noConfusion h
      · have := Except.ok.inj h
        subst this
        simp [generateEventID]
  · intro st L₁ L₂ hR
    induction hR with
    | nil st => rfl
    | same st l L₁ L₂ _ ih =>
      have hrec : ∀ (x : Str) (xs : List Str) (s : TState),
          parseLinesGo (x :: xs) s = (stepLine s x).1 ++ parseLinesGo xs (stepLine s x).2 :=
        fun _ _ _ => rfl
      rw [hrec, hrec, List.map_append, List.map_append, ih]
    | row st l₁ l₂ L₁ L₂ hin h1m1 h1m2 h1sk h1p h1h h2m1 h2m2 h2sk h2p h2h hcells _ ih =>
      have hrec : ∀ (x : Str) (xs : List Str) (s : TState),
          parseLinesGo (x :: xs) s = (stepLine s x).1 ++ parseLinesGo xs (stepLine s x).2 :=
        fun _ _ _ => rfl
      obtain ⟨hids, hst⟩ := stepLine_agree st l₁ l₂ hin h1m1 h1m2 h1sk h1p h1h h2m1 h2m2
        h2sk h2p h2h hcells
      rw [hrec, hrec, List.map_append, List.map_append, hids, ← hst, ih]

/-- C2 witness: two one-row documents differing only in the EVENT,
CASUALTIES and SOURCE cells produce the same event-ID sequence. -/
theorem C2_event_identity_witness :
    (parseLinesGo
      [str "<!-- TIMELINE_TABLE_START -->",
       str "| DATE | TIME | EVENT | CATEGORY | CASUALTIES | SOURCE |",
       str "| 2025-11-26 | 14:30 | Fire starts | FIRE | DEAD:1 | HK01 |",
       str "<!-- TIMELINE_TABLE_END -->"] tInit).map (fun e => e.id) =
    (parseLinesGo
      [str "<!-- TIMELINE_TABLE_START -->",
       str "| DATE | TIME | EVENT | CATEGORY | CASUALTIES | SOURCE |",
       str "| 2025-11-26 | 14:30 | 火警開始 | FIRE | STATUS_NONE | 明報 |",
       str "<!-- TIMELINE_TABLE_END -->"] tInit).map (fun e => e.id) := by
  apply C2_event_identity.2.2
  apply RowsAgree.same
  apply RowsAgree.same
  refine RowsAgree.row _ _ _ _ _ (by decide) (by decide) (by decide) (by decide) (by decide)
    (by decide) (by decide) (by decide) (by decide) (by decide) (by decide) ?_ ?_
  · intro m hm
    have h0 : ((stepLine (stepLine tInit (str "<!-- TIMELINE_TABLE_START -->")).2
        (str "| DATE | TIME | EVENT | CATEGORY | CASUALTIES | SOURCE |")).2).colMap =
        some stdM := by decide
    rw [h0] at hm
    have hm' := Option.some.inj hm
    subst hm'
    exact ⟨by decide, by decide, by decide⟩
  · exact RowsAgree.same _ _ _ _ (RowsAgree.nil _)

/-! ### Claim C4: Verify error taxonomy -/

/-- C4: `Verify` fails with `NoMetadataBlock` when no block is found,
with `NoHashFound` when a block is present but its HASH value is empty,
with `HashMismatch` when the hash recomputed over the clean content
differs from the stored one, and succeeds in every other case. -/
theorem C4_verify_errors (content : Str) :
    ((Extract content).1 = none → Verify content = .error .noMetadataBlock) ∧
    (∀ meta, (Extract content).1 = some meta → meta.hash = [] →
      Verify content = .error .noHashFound) ∧
    (∀ meta, (Extract content).1 = some meta → meta.hash ≠ [] →
      CalculateHash (Extract content).2 ≠ meta.hash →
      Verify content = .error (.hashMismatch meta.hash (CalculateHash (Extract content).2))) ∧
    (∀ meta, (Extract content).1 = some meta → meta.hash ≠ [] →
      CalculateHash (Extract content).2 = meta.hash →
      Verify content = .ok true) := by
  refine ⟨?_, ?_, ?_, ?_⟩
  · intro h
    unfold Verify
    cases hEq : Extract content with
    | mk f s =>
      rw [hEq] at h
      have hf : f = none := h
      subst hf
      rfl
  · intro meta hm hh
    unfold Verify
    cases hEq : Extract content with
    | mk f s =>
      rw [hEq] at hm
      have hf : f = some meta := hm
      subst hf
      show (if meta.hash = [] then Except.error VerifyErr.noHashFound
        else if CalculateHash s ≠ meta.hash then
          Except.error (VerifyErr.hashMismatch meta.hash (CalculateHash s))
        else Except.ok true) = _
      rw [if_pos hh]
  · intro meta hm hh hne
    unfold Verify
    cases hEq : Extract content with
    | mk f s =>
      rw [hEq] at hm hne
      have hf : f = some meta := hm
      subst hf
      have hne' : CalculateHash s ≠ meta.hash := hne
      show (if meta.hash = [] then Except.error VerifyErr.noHashFound
        else if CalculateHash s ≠ meta.hash then
          Except.error (VerifyErr.hashMismatch meta.hash (CalculateHash s))
        else Except.ok true) = _
      rw [if_neg hh, if_pos hne']
  · intro meta hm hh heq
    unfold Verify
    cases hEq : Extract content with
    | mk f s =>
      rw [hEq] at hm heq
      have hf : f = some meta := hm
      subst hf
      have heq' : CalculateHash s = meta.hash := heq
      show (if meta.hash = [] then Except.error VerifyErr.noHashFound
        else if CalculateHash s ≠ meta.hash then
          Except.error (VerifyErr.hashMismatch meta.hash (CalculateHash s))
        else Except.ok true) = _
      rw [if_neg hh, if_neg (by simp [heq'])]

/-- C4 witness: the `NoMetadataBlock` and `NoHashFound` branches at
concrete inputs. -/
theorem C4_verify_errors_witness :
    Verify (str "no block here") = .error .noMetadataBlock ∧
    Verify (str "<!-- METADATA_START\nVERSION: 1\nMETADATA_END -->x") = .error .noHashFound :=
  ⟨(C4_verify_errors (str "no block here")).1 (by decide),
   (C4_verify_errors (str "<!-- METADATA_START\nVERSION: 1\nMETADATA_END -->x")).2.1
     { validation := false, lastModify := [], version := str "1", hash := [] }
     (by decide) (by decide)⟩

/-! ### Claim C8: duration parsing -/

/-- C8: `ParseDuration "01:19:27:00"` is {Days 1, Hours 19, Minutes 27,
Seconds 0}; `ParseDuration "14:50"` is {Hours 14, Minutes 50};
`ParseDuration "1:2:3"` fails with `ErrInvalidDurationFormat`; and every
input whose colon-separated segment count is neither 2 nor 4 fails with
`ErrInvalidDurationFormat`. -/
theorem C8_parseDuration_spec :
    ParseDuration (str "01:19:27:00") =
      ({ raw := str "01:19:27:00", days := 1, hours := 19, minutes := 27, seconds := 0 }, none) ∧
    ParseDuration (str "14:50") =
      ({ raw := str "14:50", days := 0, hours := 14, minutes := 50, seconds := 0 }, none) ∧
    (ParseDuration (str "1:2:3")).2 = some DurErr.invalidDurationFormat ∧
    ∀ s : Str, (splitOnChar ':' s).length ≠ 2 → (splitOnChar ':' s).length ≠ 4 →
      (ParseDuration s).2 = some DurErr.invalidDurationFormat := by
  refine ⟨by decide, by decide, by decide, ?_⟩
  intro s h2 h4
  have hcount : countChar ':' s ≠ 1 := by
    intro h
    exact h2 (by rw [splitOnChar_length, h])
  simp only [ParseDuration, if_neg hcount, if_pos h4]

/-- C8 witness: a 3-segment input rejected via the general clause. -/
theorem C8_parseDuration_spec_witness :
    (ParseDuration (str "a:b:c")).2 = some DurErr.invalidDurationFormat :=
  C8_parseDuration_spec.2.2.2 (str "a:b:c") (by decide) (by decide)

/-! ### Claim C9: casualty grammar examples -/

/-- C9: `parseCasualties "DEAD:13,INJURED:7,MISSING:200"` yields exactly
the items [{DEAD,13},{INJURED,7},{MISSING,200}] in that order with status
STATUS_UPDATE, and `parseCasualties "STATUS_NONE"` yields no items with
status STATUS_NONE. -/
theorem C9_parseCasualties_examples :
    parseCasualties (str "DEAD:13,INJURED:7,MISSING:200") =
      { status := str "STATUS_UPDATE", raw := str "DEAD:13,INJURED:7,MISSING:200",
        items := [{ type := str "DEAD", count := 13 }, { type := str "INJURED", count := 7 },
                  { type := str "MISSING", count := 200 }] } ∧
    parseCasualties (str "STATUS_NONE") =
      { status := str "STATUS_NONE", raw := str "STATUS_NONE", items := [] } := by
  constructor <;> decide

/-! ### Claim C5: casualty status tags -/

/-- C5 counterexample: on the non-empty, non-sentinel input "x" nothing
matches, yet the returned status is the input text "x", not the empty
string claimed by the spec. -/
theorem C5_counterexample :
    (parseCasualties (str "x")).items = [] ∧
    (parseCasualties (str "x")).status ≠ str "" := by
  constructor <;> decide

/-- C5 (amended): status is STATUS_UPDATE whenever an item was extracted;
on the sentinel the input is returned with no items; when the input is not
the sentinel and no item matched, status equals the original input text
(not the empty string); the raw field always preserves the input. -/
theorem C5_parseCasualties_status (text : Str) :
    (parseCasualties text).raw = text ∧
    (trimSpace text = str "STATUS_NONE" →
      parseCasualties text = { status := text, raw := text, items := [] }) ∧
    ((parseCasualties text).items ≠ [] →
      (parseCasualties text).status = str "STATUS_UPDATE") ∧
    ((parseCasualties text).items = [] → (parseCasualties text).status = text) := by
  by_cases hs : trimSpace text = str "STATUS_NONE"
  · refine ⟨?_, ?_, ?_, ?_⟩ <;> simp [parseCasualties, hs]
  · by_cases hc : text.contains ':'
    · simp only [parseCasualties, if_neg hs, if_pos hc]
      refine ⟨tagItems_raw _ _, fun h => absurd h hs, ?_, ?_⟩
      · intro h
        exact tagItems_status_ne _ _ (by rwa [tagItems_items] at h)
      · intro h
        exact tagItems_status_nil _ _ (by rwa [tagItems_items] at h)
    · simp only [parseCasualties, if_neg hs, if_neg hc]
      refine ⟨tagItems_raw _ _, fun h => absurd h hs, ?_, ?_⟩
      · intro h
        exact tagItems_status_ne _ _ (by rwa [tagItems_items] at h)
      · intro h
        exact tagItems_status_nil _ _ (by rwa [tagItems_items] at h)

/-- C5 witness: the amended status rules at concrete inputs. -/
theorem C5_parseCasualties_status_witness :
    (parseCasualties (str "DEAD:1")).status = str "STATUS_UPDATE" ∧
    (parseCasualties (str "hello")).status = str "hello" :=
  ⟨(C5_parseCasualties_status (str "DEAD:1")).2.2.1 (by decide),
   (C5_parseCasualties_status (str "hello")).2.2.2 (by decide)⟩

/-! ### Metadata codec: matcher decomposition lemmas -/

theorem dropPre_some {pre s r : Str} (h : dropPre pre s = some r) : s = pre ++ r := by
  unfold dropPre at h
  split at h
  · next hp =>
    obtain ⟨t, ht⟩ := List.isPrefixOf_iff_prefix.mp hp
    injection h with h'
    rw [← h', ← ht, List.drop_left]
  · exact absurd h (by simp)

theorem matchCore_decomp {s : Str} {p : Str × Str} (h : matchCore s = some p) :
    ∃ w s3, (∀ c ∈ w, isWsRe c = true) ∧
      s = str "<!--" ++ (w ++ (str "METADATA_START" ++ s3)) := by
  unfold matchCore at h
  cases h1 : dropPre (str "<!--") s with
  | none => rw [h1] at h; exact absurd h (by simp)
  | some r =>
    rw [h1] at h
    dsimp only at h
    cases h2 : dropPre (str "METADATA_START") (r.dropWhile isWsRe) with
    | none => rw [h2] at h; exact absurd h (by simp)
    | some s3 =>
      refine ⟨r.takeWhile isWsRe, s3, fun c hc => List.mem_takeWhile_imp hc, ?_⟩
      rw [dropPre_some h1]
      conv_lhs => rw [← List.takeWhile_append_dropWhile isWsRe r]
      rw [dropPre_some h2]

theorem findFirst_eq_none {s : Str} (h : ¬ str "METADATA_START" <:+: s) :
    findFirst s = none := by
  induction s with
  | nil => rfl
  | cons c cs ih =>
    unfold findFirst
    cases hm : matchCore (c :: cs) with
    | some p =>
      obtain ⟨w, s3, _, hdec⟩ := matchCore_decomp hm
      exact absurd ⟨str "<!--" ++ w, s3, by rw [hdec]; simp⟩ h
    | none =>
      rw [ih (fun hi => h (inf_cons c hi))]
      rfl

theorem removeAllFuel_nil (f : Nat) : removeAllFuel f [] = [] := by
  cases f <;> rfl

theorem removeAll_of_none {s : Str} (h : findFirst s = none) : removeAll s = s := by
  unfold removeAll
  cases s.length with
  | zero => rfl
  | succ n => unfold removeAllFuel; rw [h]

theorem Extract_no_marker {s : Str} (h : ¬ str "METADATA_START" <:+: s) :
    Extract s = (none, trimRightNl s) := by
  unfold Extract
  rw [findFirst_eq_none h, removeAll_of_none (findFirst_eq_none h)]

/-! ### Trimming lemmas (`strings.TrimSpace` / `TrimRight`) -/

theorem dropWhile_noop {p : Char → Bool} {x : Str} {c : Char}
    (hh : x.head? = some c) (hc : p c = false) : List.dropWhile p x = x := by
  cases x with
  | nil => rfl
  | cons a t =>
    injection hh with hh
    subst hh
    rw [List.dropWhile_cons, if_neg (by rw [hc]; exact Bool.false_ne_true)]

theorem dropWhile_dw (p : Char → Bool) (l : Str) :
    List.dropWhile p (List.dropWhile p l) = List.dropWhile p l := by
  induction l with
  | nil => rfl
  | cons a t ih =>
    rw [List.dropWhile_cons]
    split
    · exact ih
    · next hpa => rw [List.dropWhile_cons, if_neg hpa]

theorem trimRightBy_noop {p : Char → Bool} {x : Str} {c : Char}
    (hl : x.getLast? = some c) (hc : p c = false) : trimRightBy p x = x := by
  unfold trimRightBy
  rw [dropWhile_noop (by rw [List.head?_reverse, hl]) hc, List.reverse_reverse]

theorem trimRightBy_idem (p : Char → Bool) (x : Str) :
    trimRightBy p (trimRightBy p x) = trimRightBy p x := by
  unfold trimRightBy
  rw [List.reverse_reverse, dropWhile_dw]

theorem trimRightBy_append_last {p : Char → Bool} {a : Str} (b : Str) {c : Char}
    (ha : a.getLast? = some c) (hc : p c = false) :
    trimRightBy p (a ++ b) = a ++ trimRightBy p b := by
  unfold trimRightBy
  rw [List.reverse_append, List.dropWhile_append]
  split
  · next hemp =>
    have h3 : List.dropWhile p b.reverse = [] := by
      cases hdw : List.dropWhile p b.reverse with
      | nil => rfl
      | cons y t => rw [hdw] at hemp; exact absurd hemp (by simp)
    rw [dropWhile_noop (by rw [List.head?_reverse, ha]) hc, List.reverse_reverse, h3]
    simp
  · rw [List.reverse_append, List.reverse_reverse]

theorem trimRightBy_append_all {p : Char → Bool} {a b : Str}
    (hb : ∀ c ∈ b, p c = true) :
    trimRightBy p (a ++ b) = trimRightBy p a := by
  unfold trimRightBy
  rw [List.reverse_append, List.dropWhile_append]
  have hdrop : List.dropWhile p b.reverse = [] :=
    List.dropWhile_eq_nil_iff.mpr (fun c hcmem => hb c (List.mem_reverse.mp hcmem))
  rw [hdrop]
  simp

theorem hex_not_space {c : Char} (h : c ∈ str "0123456789abcdef") :
    isSpaceGo c = false :=
  (by decide : ∀ x ∈ str "0123456789abcdef", isSpaceGo x = false) c h

theorem hex_not_nl {c : Char} (h : c ∈ str "0123456789abcdef") : c ≠ '\n' :=
  (by decide : ∀ x ∈ str "0123456789abcdef", x ≠ '\n') c h

theorem signBlock_decomp (v : Bool) (now h : Str) :
    signBlock v now h =
      str "\n\n" ++ (str "<!-- METADATA_START\n" ++
        (metaBody v now h ++ str "\nMETADATA_END -->")) := by
  unfold signBlock metaBody
  simp only [List.append_assoc]
  rfl

theorem metaBody_lines (v : Bool) (now h : Str) :
    metaBody v now h =
      (str "VALIDATION: " ++ (if v then str "TRUE" else str "FALSE")) ++
        '\n' :: ((str "LAST_MODIFY: " ++ now) ++ '\n' :: (str "HASH: " ++ h)) := by
  unfold metaBody
  simp only [List.append_assoc]
  rfl

theorem parseMetaLine_validation (m : Metadata) (v : Bool) :
    parseMetaLine m (str "VALIDATION: " ++ (if v then str "TRUE" else str "FALSE")) =
      { m with validation := v } := by
  cases v <;> rfl

theorem parseMetaLine_lastmod (m : Metadata) (now : Str) :
    parseMetaLine m (str "LAST_MODIFY: " ++ now) =
      { m with lastModify := trimSpace (trimRightBy isSpaceGo (' ' :: now)) } := by
  have e1 : str "LAST_MODIFY: " ++ now = str "LAST_MODIFY:" ++ (' ' :: now) := rfl
  have e2 : trimSpace (str "LAST_MODIFY:" ++ (' ' :: now)) =
      str "LAST_MODIFY:" ++ trimRightBy isSpaceGo (' ' :: now) := by
    unfold trimSpace
    rw [dropWhile_noop
          (show (str "LAST_MODIFY:" ++ (' ' :: now)).head? = some 'L' from rfl) rfl,
        trimRightBy_append_last _
          (show (str "LAST_MODIFY:").getLast? = some ':' from by decide)
          (show isSpaceGo ':' = false from rfl)]
  rw [e1]
  unfold parseMetaLine
  rw [e2]
  rfl

theorem parseMetaLine_hash (m : Metadata) {h : Str} (hne : h ≠ [])
    (hhex : ∀ c ∈ h, c ∈ str "0123456789abcdef") :
    parseMetaLine m (str "HASH: " ++ h) = { m with hash := h } := by
  have e1 : str "HASH: " ++ h = str "HASH:" ++ (' ' :: h) := rfl
  have hlast : h.getLast? = some (h.getLast hne) := List.getLast?_eq_getLast h hne
  have hls : isSpaceGo (h.getLast hne) = false :=
    hex_not_space (hhex _ (List.getLast_mem hne))
  have hlast2 : (' ' :: h).getLast? = some (h.getLast hne) := by
    rw [show (' ' :: h) = [' '] ++ h from rfl, List.getLast?_append, hlast]
    rfl
  have e3 : trimRightBy isSpaceGo (' ' :: h) = ' ' :: h := trimRightBy_noop hlast2 hls
  have e2 : trimSpace (str "HASH:" ++ (' ' :: h)) = str "HASH:" ++ (' ' :: h) := by
    unfold trimSpace
    rw [dropWhile_noop
          (show (str "HASH:" ++ (' ' :: h)).head? = some 'H' from rfl) rfl,
        trimRightBy_append_last _
          (show (str "HASH:").getLast? = some ':' from by decide)
          (show isSpaceGo ':' = false from rfl), e3]
  have hdh : List.dropWhile isSpaceGo (' ' :: h) = h := by
    show List.dropWhile isSpaceGo h = h
    cases h with
    | nil => exact absurd rfl hne
    | cons c t =>
      exact dropWhile_noop rfl (hex_not_space (hhex c (List.mem_cons_self c t)))
  have e4 : trimSpace (' ' :: h) = h := by
    unfold trimSpace
    rw [hdh]
    exact trimRightBy_noop hlast hls
  rw [e1]
  unfold parseMetaLine
  rw [e2]
  show { m with hash := trimSpace (' ' :: h) } = { m with hash := h }
  rw [e4]

theorem parseMeta_metaBody (v : Bool) {now h : Str}
    (hnow : ∀ c ∈ now, c ≠ '\n') (hne : h ≠ [])
    (hhex : ∀ c ∈ h, c ∈ str "0123456789abcdef") :
    parseMeta (metaBody v now h) =
      { validation := v,
        lastModify := trimSpace (trimRightBy isSpaceGo (' ' :: now)),
        version := [], hash := h } := by
  have hA : ∀ x ∈ str "VALIDATION: " ++ (if v then str "TRUE" else str "FALSE"),
      x ≠ '\n' := by
    cases v <;> decide
  have hB : ∀ x ∈ str "LAST_MODIFY: " ++ now, x ≠ '\n' := by
    have hB1 : ∀ x ∈ str "LAST_MODIFY: ", x ≠ '\n' := by decide
    intro x hx
    rcases List.mem_append.mp hx with hx | hx
    · exact hB1 x hx
    · exact hnow x hx
  have hC : ∀ x ∈ str "HASH: " ++ h, x ≠ '\n' := by
    have hC1 : ∀ x ∈ str "HASH: ", x ≠ '\n' := by decide
    intro x hx
    rcases List.mem_append.mp hx with hx | hx
    · exact hC1 x hx
    · exact hex_not_nl (hhex x hx)
  have hsplit : splitOnChar '\n' (metaBody v now h) =
      [str "VALIDATION: " ++ (if v then str "TRUE" else str "FALSE"),
       str "LAST_MODIFY: " ++ now,
       str "HASH: " ++ h] := by
    rw [metaBody_lines, splitOnChar_append_cons '\n' _ hA,
        splitOnChar_append_cons '\n' _ hB, splitOnChar_of_nf hC]
  unfold parseMeta
  rw [hsplit]
  show parseMetaLine (parseMetaLine (parseMetaLine
    { validation := false, lastModify := [], version := [], hash := [] }
    (str "VALIDATION: " ++ (if v then str "TRUE" else str "FALSE")))
    (str "LAST_MODIFY: " ++ now)) (str "HASH: " ++ h) = _
  rw [parseMetaLine_validation, parseMetaLine_lastmod, parseMetaLine_hash _ hne hhex]

/-! ### Evaluating the matcher on the freshly signed block -/

theorem chunkA_nf (v : Bool) :
    ∀ x ∈ str "VALIDATION: " ++ (if v then str "TRUE" else str "FALSE"),
      x ≠ '\n' := by
  cases v <;> decide

theorem chunkB_nf {now : Str} (hnow : ∀ c ∈ now, c ≠ '\n') :
    ∀ x ∈ str "LAST_MODIFY: " ++ now, x ≠ '\n' := by
  have hB1 : ∀ x ∈ str "LAST_MODIFY: ", x ≠ '\n' := by decide
  intro x hx
  rcases List.mem_append.mp hx with hx | hx
  · exact hB1 x hx
  · exact hnow x hx

theorem chunkC_nf {h : Str} (hhex : ∀ c ∈ h, c ∈ str "0123456789abcdef") :
    ∀ x ∈ str "HASH: " ++ h, x ≠ '\n' := by
  have hC1 : ∀ x ∈ str "HASH: ", x ≠ '\n' := by decide
  intro x hx
  rcases List.mem_append.mp hx with hx | hx
  · exact hC1 x hx
  · exact hex_not_nl (hhex x hx)

theorem endPatAt_ne {x : Char} {t : Str} (hx : x ≠ '\n') : endPatAt (x :: t) = none := by
  unfold endPatAt
  split
  · next r heq => exact absurd (List.cons.inj heq).1 hx
  · rfl

theorem findEnd_append_nf {a : Str} (r : Str) (ha : ∀ c ∈ a, c ≠ '\n') :
    findEnd (a ++ r) = (findEnd r).map (fun gr => (a ++ gr.1, gr.2)) := by
  induction a with
  | nil =>
    simp only [List.nil_append]
    cases findEnd r <;> rfl
  | cons c cs ih =>
    have hc : c ≠ '\n' := ha c (List.mem_cons_self c cs)
    have eu : findEnd ((c :: cs) ++ r) =
        match endPatAt (c :: (cs ++ r)) with
        | some rest => some ([], rest)
        | none => (findEnd (cs ++ r)).map (fun gr => (c :: gr.1, gr.2)) := rfl
    rw [eu, endPatAt_ne hc, ih (fun x hx => ha x (List.mem_cons_of_mem c hx))]
    cases findEnd r <;> rfl

theorem findEnd_cons_nlfail {t : Str} (h : endPatAt ('\n' :: t) = none) :
    findEnd ('\n' :: t) = (findEnd t).map (fun gr => ('\n' :: gr.1, gr.2)) := by
  have eu : findEnd ('\n' :: t) =
      match endPatAt ('\n' :: t) with
      | some rest => some ([], rest)
      | none => (findEnd t).map (fun gr => ('\n' :: gr.1, gr.2)) := rfl
  rw [eu, h]

theorem findEnd_tail (v : Bool) {now h : Str}
    (hnow : ∀ c ∈ now, c ≠ '\n') (hhex : ∀ c ∈ h, c ∈ str "0123456789abcdef") :
    findEnd (metaBody v now h ++ str "\nMETADATA_END -->") =
      some (metaBody v now h, []) := by
  have e : metaBody v now h ++ str "\nMETADATA_END -->" =
      (str "VALIDATION: " ++ (if v then str "TRUE" else str "FALSE")) ++
        ('\n' :: ((str "LAST_MODIFY: " ++ now) ++
          ('\n' :: ((str "HASH: " ++ h) ++ str "\nMETADATA_END -->")))) := by
    rw [metaBody_lines]
    simp [List.append_assoc]
  have hfailB :
      endPatAt ('\n' :: ((str "LAST_MODIFY: " ++ now) ++
        ('\n' :: ((str "HASH: " ++ h) ++ str "\nMETADATA_END -->")))) = none := by
    have eu2 : endPatAt ('\n' :: ((str "LAST_MODIFY: " ++ now) ++
        ('\n' :: ((str "HASH: " ++ h) ++ str "\nMETADATA_END -->")))) =
        match dropPre (str "METADATA_END")
            (List.dropWhile isWsRe ((str "LAST_MODIFY: " ++ now) ++
              ('\n' :: ((str "HASH: " ++ h) ++ str "\nMETADATA_END -->")))) with
        | some r2 => dropPre (str "-->") (List.dropWhile isWsRe r2)
        | none => none := rfl
    have hdw : List.dropWhile isWsRe ((str "LAST_MODIFY: " ++ now) ++
        ('\n' :: ((str "HASH: " ++ h) ++ str "\nMETADATA_END -->"))) =
        (str "LAST_MODIFY: " ++ now) ++
          ('\n' :: ((str "HASH: " ++ h) ++ str "\nMETADATA_END -->")) :=
      dropWhile_noop (show ((str "LAST_MODIFY: " ++ now) ++
        ('\n' :: ((str "HASH: " ++ h) ++ str "\nMETADATA_END -->"))).head? =
        some 'L' from rfl) rfl
    rw [eu2, hdw]
    rfl
  have hfailC :
      endPatAt ('\n' :: ((str "HASH: " ++ h) ++ str "\nMETADATA_END -->")) = none := by
    have eu3 : endPatAt ('\n' :: ((str "HASH: " ++ h) ++ str "\nMETADATA_END -->")) =
        match dropPre (str "METADATA_END")
            (List.dropWhile isWsRe ((str "HASH: " ++ h) ++ str "\nMETADATA_END -->")) with
        | some r2 => dropPre (str "-->") (List.dropWhile isWsRe r2)
        | none => none := rfl
    have hdw : List.dropWhile isWsRe ((str "HASH: " ++ h) ++ str "\nMETADATA_END -->") =
        (str "HASH: " ++ h) ++ str "\nMETADATA_END -->" :=
      dropWhile_noop (show ((str "HASH: " ++ h) ++
        str "\nMETADATA_END -->").head? = some 'H' from rfl) rfl
    rw [eu3, hdw]
    rfl
  have hfinal : findEnd (str "\nMETADATA_END -->") = some ([], []) := by decide
  rw [e, findEnd_append_nf _ (chunkA_nf v), findEnd_cons_nlfail hfailB,
      findEnd_append_nf _ (chunkB_nf hnow), findEnd_cons_nlfail hfailC,
      findEnd_append_nf _ (chunkC_nf hhex), hfinal]
  rw [metaBody_lines]
  simp [List.append_assoc]

theorem matchCore_block (v : Bool) {now h : Str}
    (hnow : ∀ c ∈ now, c ≠ '\n') (hhex : ∀ c ∈ h, c ∈ str "0123456789abcdef") :
    matchCore (str "<!-- METADATA_START\n" ++
        (metaBody v now h ++ str "\nMETADATA_END -->")) =
      some (metaBody v now h, []) := by
  have e : matchCore (str "<!-- METADATA_START\n" ++
        (metaBody v now h ++ str "\nMETADATA_END -->")) =
      findEnd (metaBody v now h ++ str "\nMETADATA_END -->") := rfl
  rw [e, findEnd_tail v hnow hhex]

theorem findFirst_block (v : Bool) {now h : Str}
    (hnow : ∀ c ∈ now, c ≠ '\n') (hhex : ∀ c ∈ h, c ∈ str "0123456789abcdef") :
    findFirst (str "\n\n" ++ (str "<!-- METADATA_START\n" ++
        (metaBody v now h ++ str "\nMETADATA_END -->"))) =
      some (str "\n\n", metaBody v now h, []) := by
  have h2 : findFirst (str "<!-- METADATA_START\n" ++
      (metaBody v now h ++ str "\nMETADATA_END -->")) =
      some ([], metaBody v now h, []) := by
    have eu : findFirst (str "<!-- METADATA_START\n" ++
        (metaBody v now h ++ str "\nMETADATA_END -->")) =
        match matchCore (str "<!-- METADATA_START\n" ++
          (metaBody v now h ++ str "\nMETADATA_END -->")) with
        | some (g, rest) => some ([], g, rest)
        | none =>
          (findFirst (str "!-- METADATA_START\n" ++
            (metaBody v now h ++ str "\nMETADATA_END -->"))).map
            (fun pgr => ('<' :: pgr.1, pgr.2.1, pgr.2.2)) := rfl
    rw [eu, matchCore_block v hnow hhex]
  show (findFirst ('\n' :: (str "<!-- METADATA_START\n" ++
      (metaBody v now h ++ str "\nMETADATA_END -->")))).map
      (fun pgr => ('\n' :: pgr.1, pgr.2.1, pgr.2.2)) = _
  have h1 : findFirst ('\n' :: (str "<!-- METADATA_START\n" ++
      (metaBody v now h ++ str "\nMETADATA_END -->"))) =
      some (['\n'], metaBody v now h, []) := by
    show (findFirst (str "<!-- METADATA_START\n" ++
        (metaBody v now h ++ str "\nMETADATA_END -->"))).map
        (fun pgr => ('\n' :: pgr.1, pgr.2.1, pgr.2.2)) = _
    rw [h2]
    rfl
  rw [h1]
  rfl

/-! ### Take/drop tools and the hex digest alphabet -/

theorem suffix_trans_len {a b l : Str} (ha : a <:+ l) (hb : b <:+ l)
    (hlen : a.length ≤ b.length) : a <:+ b := by
  obtain ⟨ta, hta⟩ := ha
  obtain ⟨tb, htb⟩ := hb
  have hla : ta.length + a.length = l.length := by rw [← hta]; simp
  have hlb : tb.length + b.length = l.length := by rw [← htb]; simp
  have hab : a = b.drop (ta.length - tb.length) := by
    have h1 : a = l.drop ta.length := by rw [← hta, List.drop_left]
    have h2 : b = l.drop tb.length := by rw [← htb, List.drop_left]
    rw [h1, h2, List.drop_drop]
    congr 1
    omega
  rw [hab]
  exact List.drop_suffix _ b

theorem pre_of_append_le {p u B : Str} (h : p <+: u ++ B)
    (hlen : p.length ≤ u.length) : p <+: u := by
  have hp : p = (u ++ B).take p.length := List.prefix_iff_eq_take.mp h
  rw [List.take_append_eq_append_take, Nat.sub_eq_zero_of_le hlen, List.take_zero,
      List.append_nil] at hp
  rw [hp]
  exact List.take_prefix _ u

theorem pre_of_append_gt {p u B : Str} (h : p <+: u ++ B)
    (hlen : u.length < p.length) : p = u ++ B.take (p.length - u.length) := by
  have hp : p = (u ++ B).take p.length := List.prefix_iff_eq_take.mp h
  rwa [List.take_append_eq_append_take, List.take_of_length_le (by omega)] at hp

theorem hexDigit_mem (n : Nat) : hexDigit n ∈ str "0123456789abcdef" := by
  unfold hexDigit
  rcases Nat.lt_or_ge n 16 with hn | hn
  · interval_cases n <;> decide
  · rw [List.getD_eq_default _ _ (show (str "0123456789abcdef").length ≤ n by
      simpa using hn)]
    decide

theorem sha256Hex_mem {msg : List Nat} : ∀ c ∈ sha256Hex msg,
    c ∈ str "0123456789abcdef" := by
  intro c hc
  unfold sha256Hex at hc
  rcases List.mem_flatMap.mp hc with ⟨b, _, hcb⟩
  unfold byteHex at hcb
  simp only [List.mem_cons, List.not_mem_nil, or_false] at hcb
  rcases hcb with rfl | rfl
  · exact hexDigit_mem _
  · exact hexDigit_mem _

theorem sha256Compress_ne_nil (hs block : List Nat) :
    sha256Compress hs block ≠ [] := by
  intro hc
  simp only [sha256Compress] at hc
  exact List.noConfusion hc

theorem foldl_compress_ne_nil (L : List (List Nat)) (hs : List Nat)
    (h : hs ≠ []) : L.foldl sha256Compress hs ≠ [] := by
  induction L generalizing hs with
  | nil => exact h
  | cons b bs ih =>
    rw [List.foldl_cons]
    exact ih _ (sha256Compress_ne_nil hs b)

theorem sha256Hex_ne_nil (msg : List Nat) : sha256Hex msg ≠ [] := by
  unfold sha256Hex sha256Bytes
  cases hL : (chunks64 (sha256Pad msg)).foldl sha256Compress sha256H0 with
  | nil => exact absurd hL (foldl_compress_ne_nil _ _ (by decide))
  | cons w ws => simp [wordBytes, byteHex]

/-! ### No block match can start inside marker-free clean content -/

theorem matchCore_append_none {u B : Str}
    (hB : B.take 3 = str "\n\n<")
    (hinf : ¬ str "METADATA_START" <:+: u) :
    matchCore (u ++ B) = none := by
  have hB' : B.take 3 = ['\n', '\n', '<'] := hB
  cases hmc : matchCore (u ++ B) with
  | none => rfl
  | some p =>
    exfalso
    obtain ⟨w, s3, hws, hdec⟩ := matchCore_decomp hmc
    have hPpre : (str "<!--" ++ (w ++ str "METADATA_START")) <+: u ++ B :=
      ⟨s3, by rw [hdec]; simp⟩
    set P := str "<!--" ++ (w ++ str "METADATA_START") with hPdef
    have hlitP : str "METADATA_START" <:+ P :=
      ⟨str "<!--" ++ w, by rw [hPdef]; simp⟩
    rcases le_or_lt P.length u.length with hle | hgt
    · exact hinf (inf_trans (suf_to_inf hlitP) (pre_to_inf (pre_of_append_le hPpre hle)))
    · have hq : P = u ++ B.take (P.length - u.length) := pre_of_append_gt hPpre hgt
      set k := P.length - u.length with hkdef
      have hk1 : 1 ≤ k := by omega
      have hBlen : 3 ≤ B.length := by
        have hlen3 := congrArg List.length hB'
        simp [List.length_take] at hlen3
        omega
      have hqlen : (B.take k).length = min k B.length := List.length_take k B
      have hq_suf : B.take k <:+ P := ⟨u, hq.symm⟩
      have hhead : (B.take k).head? = some '\n' := by
        cases B with
        | nil => exact absurd hB' (by decide)
        | cons b bs =>
          have hb : b = '\n' := by
            have h' := congrArg List.head? hB'
            simp at h'
            exact h'
          cases hk : k with
          | zero => omega
          | succ j => rw [hb]; rfl
      have hnl_mem : '\n' ∈ B.take k := by
        cases hqc : B.take k with
        | nil => rw [hqc] at hhead; exact Option.noConfusion hhead
        | cons a t =>
          rw [hqc] at hhead
          have ha : a = '\n' := Option.some.inj hhead
          rw [← ha]
          exact List.mem_cons_self a t
      rcases le_or_lt (B.take k).length 14 with h14 | h14
      · have hq_lit : B.take k <:+ str "METADATA_START" :=
          suffix_trans_len hq_suf hlitP h14
        have hmemlit : '\n' ∈ str "METADATA_START" := hq_lit.sublist.subset hnl_mem
        exact absurd hmemlit (by decide)
      · have h3pre : str "\n\n<" <+: B.take k := by
          have e1 : (B.take k).take 3 = B.take 3 := by
            rw [List.take_take]
            congr 1
            omega
          rw [← hB, ← e1]
          exact List.take_prefix _ _
        have h3P : str "\n\n<" <:+: P := inf_trans (pre_to_inf h3pre) (suf_to_inf hq_suf)
        obtain ⟨s, t, hst⟩ := h3P
        have hnolt : ∀ c ∈ str "!--" ++ (w ++ str "METADATA_START"), c ≠ '<' := by
          intro c hcmem
          rcases List.mem_append.mp hcmem with hc1 | hc2
          · have hsx : ∀ c ∈ str "!--", c ≠ '<' := by decide
            exact hsx c hc1
          · rcases List.mem_append.mp hc2 with hw | hl
            · intro heq
              rw [heq] at hw
              exact absurd (hws '<' hw) (by decide)
            · have hsx : ∀ c ∈ str "METADATA_START", c ≠ '<' := by decide
              exact hsx c hl
        have hPcons : P = '<' :: (str "!--" ++ (w ++ str "METADATA_START")) := by
          rw [hPdef]; rfl
        rw [hPcons] at hst
        cases s with
        | nil =>
          have hst2 : '\n' :: (str "\n<" ++ t) =
              '<' :: (str "!--" ++ (w ++ str "METADATA_START")) := hst
          exact absurd (List.cons.inj hst2).1 (by decide)
        | cons c0 s' =>
          have hst2 : c0 :: ((s' ++ str "\n\n<") ++ t) =
              '<' :: (str "!--" ++ (w ++ str "METADATA_START")) := hst
          have hrest : (s' ++ str "\n\n<") ++ t =
              str "!--" ++ (w ++ str "METADATA_START") := (List.cons.inj hst2).2
          have hmem : '<' ∈ (s' ++ str "\n\n<") ++ t :=
            List.mem_append_left t (List.mem_append_right s' (by decide))
          rw [hrest] at hmem
          exact absurd rfl (hnolt '<' hmem)

/-! ### Extract over clean content followed by a fresh block -/

theorem findFirst_clean_block {u B pB g r : Str}
    (hB : B.take 3 = str "\n\n<")
    (hff : findFirst B = some (pB, g, r))
    (hinf : ¬ str "METADATA_START" <:+: u) :
    findFirst (u ++ B) = some (u ++ pB, g, r) := by
  induction u with
  | nil => simpa using hff
  | cons c cs ih =>
    have hmc : matchCore (c :: (cs ++ B)) = none :=
      matchCore_append_none hB hinf
    have eu : findFirst ((c :: cs) ++ B) =
        match matchCore (c :: (cs ++ B)) with
        | some (g, rest) => some ([], g, rest)
        | none =>
          (findFirst (cs ++ B)).map (fun pgr => (c :: pgr.1, pgr.2.1, pgr.2.2)) := rfl
    rw [eu, hmc, ih (fun hi => hinf (inf_cons c hi))]
    rfl

theorem removeAll_of_some {s p g : Str} (hff : findFirst s = some (p, g, [])) :
    removeAll s = p := by
  unfold removeAll
  cases s with
  | nil => exact Option.noConfusion hff
  | cons c cs =>
    show removeAllFuel (cs.length + 1) (c :: cs) = p
    unfold removeAllFuel
    rw [hff]
    show p ++ removeAllFuel cs.length [] = p
    rw [removeAllFuel_nil, List.append_nil]

theorem Extract_clean_block {clean now h : Str} (v : Bool)
    (hcl : ¬ str "METADATA_START" <:+: clean)
    (hnow : ∀ c ∈ now, c ≠ '\n') (hne : h ≠ [])
    (hhex : ∀ c ∈ h, c ∈ str "0123456789abcdef") :
    Extract (clean ++ signBlock v now h) =
      (some { validation := v,
              lastModify := trimSpace (trimRightBy isSpaceGo (' ' :: now)),
              version := [], hash := h },
       trimRightNl clean) := by
  have hBtake : (str "\n\n" ++ (str "<!-- METADATA_START\n" ++
      (metaBody v now h ++ str "\nMETADATA_END -->"))).take 3 = str "\n\n<" := rfl
  have hff : findFirst (clean ++ (str "\n\n" ++ (str "<!-- METADATA_START\n" ++
      (metaBody v now h ++ str "\nMETADATA_END -->")))) =
      some (clean ++ str "\n\n", metaBody v now h, []) :=
    findFirst_clean_block hBtake (findFirst_block v hnow hhex) hcl
  rw [signBlock_decomp]
  unfold Extract
  rw [hff, removeAll_of_some hff]
  have htr : trimRightNl (clean ++ str "\n\n") = trimRightNl clean := by
    unfold trimRightNl
    exact trimRightBy_append_all (by decide)
  rw [htr]
  show (some (parseMeta (metaBody v now h)), trimRightNl clean) = _
  rw [parseMeta_metaBody v hnow hne hhex]

/-! ### Claims C1 and C7 (`metadata.Sign` / `metadata.Verify` round trips) -/

theorem Extract_snd_trimmed (text : Str) :
    trimRightNl (Extract text).2 = (Extract text).2 := by
  have e : (Extract text).2 = trimRightNl (removeAll text) := by
    unfold Extract
    cases findFirst text with
    | none => rfl
    | some x => rfl
  rw [e]
  unfold trimRightNl
  exact trimRightBy_idem _ _

/-- C1 (amended): `Verify (Sign text v)` succeeds — the hash recomputed over
the freshly stripped content equals the embedded one — whenever the clean
content extracted from `text` does not itself contain the substring
`METADATA_START` (and the RFC3339 timestamp contains no newline).  The
unconditional claim is refuted by `C1_counterexample`. -/
theorem C1_sign_verify_roundtrip (text now : Str) (v : Bool)
    (hnow : ∀ c ∈ now, c ≠ '\n')
    (hcl : ¬ str "METADATA_START" <:+: (Extract text).2) :
    Verify (Sign now text v) = Except.ok true := by
  have hsign : Sign now text v =
      (Extract text).2 ++ signBlock v now (CalculateHash (Extract text).2) := rfl
  have hne' : CalculateHash (Extract text).2 ≠ [] := sha256Hex_ne_nil _
  have hhex' : ∀ c ∈ CalculateHash (Extract text).2, c ∈ str "0123456789abcdef" :=
    sha256Hex_mem
  rw [hsign]
  unfold Verify
  rw [Extract_clean_block v hcl hnow hne' hhex', Extract_snd_trimmed]
  show (if CalculateHash (Extract text).2 = [] then Except.error VerifyErr.noHashFound
        else if CalculateHash (Extract text).2 ≠ CalculateHash (Extract text).2 then
          Except.error (VerifyErr.hashMismatch (CalculateHash (Extract text).2)
            (CalculateHash (Extract text).2))
        else Except.ok true) = Except.ok true
  rw [if_neg hne', if_neg (by simp)]

/-- C7 (amended): signing twice does not accumulate blocks — the clean content
extracted from `Sign (Sign text v) v` equals the clean content extracted from
`Sign text v` — whenever the clean content of the once-signed output does not
itself contain the substring `METADATA_START`.  The unconditional claim is
refuted by `C7_counterexample`, where block removal splices the surrounding
text into a new marker. -/
theorem C7_sign_idempotent (text now now₂ : Str) (v : Bool)
    (hnow : ∀ c ∈ now₂, c ≠ '\n')
    (hcl : ¬ str "METADATA_START" <:+: (Extract (Sign now text v)).2) :
    (Extract (Sign now₂ (Sign now text v) v)).2 = (Extract (Sign now text v)).2 := by
  have hS : Sign now₂ (Sign now text v) v =
      (Extract (Sign now text v)).2 ++
        signBlock v now₂ (CalculateHash (Extract (Sign now text v)).2) := rfl
  have hne' : CalculateHash (Extract (Sign now text v)).2 ≠ [] := sha256Hex_ne_nil _
  have hhex' : ∀ c ∈ CalculateHash (Extract (Sign now text v)).2,
      c ∈ str "0123456789abcdef" := sha256Hex_mem
  rw [hS, Extract_clean_block v hcl hnow hne' hhex']
  exact Extract_snd_trimmed (Sign now text v)

/-- C1 witness: the amended round trip at a concrete text and timestamp. -/
theorem C1_sign_verify_roundtrip_witness :
    Verify (Sign (str "2025-01-01T00:00:00Z") (str "hello") false) = Except.ok true :=
  C1_sign_verify_roundtrip (str "hello") (str "2025-01-01T00:00:00Z") false
    (by decide) (by decide)

set_option maxRecDepth 4000 in
/-- C1 counterexample: a text consisting of an unterminated
`<!-- METADATA_START` start marker.  `Sign` appends a fresh block after it;
on re-extraction the leftover marker opens a match that swallows the fresh
block, the clean content changes, and `Verify` fails (with a hash mismatch),
refuting the unconditional round-trip claim. -/
theorem C1_counterexample :
    (Verify (Sign (str "2025-01-01T00:00:00Z")
      (str "<!-- METADATA_START\nx") false)).isOk = false := by decide

set_option maxRecDepth 4000 in
/-- C7 witness: the amended idempotence at a concrete text and timestamps. -/
theorem C7_sign_idempotent_witness :
    (Extract (Sign (str "2025-01-02T00:00:00Z")
        (Sign (str "2025-01-01T00:00:00Z") (str "hello") true) true)).2 =
      (Extract (Sign (str "2025-01-01T00:00:00Z") (str "hello") true)).2 :=
  C7_sign_idempotent (str "hello") (str "2025-01-01T00:00:00Z")
    (str "2025-01-02T00:00:00Z") true (by decide) (by decide)

set_option maxRecDepth 8000 in
/-- C7 counterexample: signing `c7text` twice changes the clean content (the
second signing's block removal deletes the marker text the first signing left
behind), refuting the unconditional idempotence claim. -/
theorem C7_counterexample :
    (Extract (Sign (str "2025-01-01T00:00:00Z")
        (Sign (str "2025-01-01T00:00:00Z") c7text false) false)).2 ≠
      (Extract (Sign (str "2025-01-01T00:00:00Z") c7text false)).2 := by decide

end TPWFC

